import Mathlib

/-!
Shallow embedding of the Google-Calendar synchronization engine of the
Task_Management_BE repository (`SyncService` in `src/projects/projects.service.ts`,
the Mongoose schemas under `src/pomodoro`, `src/calendars` and `src/tasks`,
`TasksService` and the webhook controller in `src/sync/webhook.controller.ts`).

Timestamps are modelled as milliseconds since the epoch (`Int`), matching the
JavaScript `Date.getTime()` representation; the server's local timezone is
modelled as UTC.  Mongoose collections are modelled as lists inside a `Db`
record; the unique indexes declared by the schemas are modelled in the insert
operations.  Remote Google-Calendar calls are modelled by an oracle structure
`Remote` of pure functions, and every engine operation additionally returns the
list of remote calls it issued.
-/

deriving instance DecidableEq for Except

namespace TaskSync

def INBOX_PROJECT_NAME : String := "Inbox"

def DEFAULT_CALENDAR_NAME : String := "Axis"

/-- `defaultEventDuration = 60 * 60 * 1000` (one hour in milliseconds). -/
def defaultEventDuration : Int := 60 * 60 * 1000

def msPerDay : Int := 24 * 60 * 60 * 1000

/-- Midnight of the (UTC) day containing instant `d`. -/
def dayStart (d : Int) : Int := d - d % msPerDay

/-- `Date.getHours()` of an instant (UTC model). -/
def hourOfDay (d : Int) : Int := d % msPerDay / (60 * 60 * 1000)

/-- `Date.getMinutes()` of an instant (UTC model). -/
def minuteOfHour (d : Int) : Int := d % (60 * 60 * 1000) / (60 * 1000)

/-- JavaScript string truthiness on an optional string: `null`, `undefined`
and `""` are falsy. -/
def strOpt (o : Option String) : Option String :=
  match o with
  | some s => if s == "" then none else some s
  | none => none

/-- `s.includes(pat)` for a non-empty pattern, via `splitOn`. -/
def containsSub (s pat : String) : Bool := (s.splitOn pat).length > 1

/-- Task record (`src/tasks/schemas/task.schema.ts`; the current sync code reads
the `date`/`time` fields, while `scheduledEndDate` is the schema's explicit
end instant, honoured only by the legacy payload builder). -/
structure Task where
  id : Nat
  /-- Owner account; `0` encodes a legacy row with a missing owner
  (the code's `if (!task.userId)` branch). -/
  userId : Nat
  title : String
  description : Option String := none
  project : Option String := none
  /-- Scheduled date (ms since epoch). -/
  date : Option Int := none
  /-- Time-of-day `"HH:MM"`, modelled parsed as (hours, minutes). -/
  time : Option (Int × Int) := none
  /-- Explicit end instant (`scheduledEndDate` in the schema). -/
  scheduledEndDate : Option Int := none
  deadline : Option Int := none
  status : String := "backlog"
  completed : Bool := false
  googleEventId : Option String := none
  lastSyncedAt : Option Int := none
deriving DecidableEq, Repr

structure Project where
  id : Nat
  userId : Nat
  name : String
  description : Option String := none
  status : String := "active"
  color : Option String := none
  colorId : Option String := none
deriving DecidableEq, Repr

structure User where
  id : Nat
  dedicatedCalendarId : Option String := none
  autoSyncEnabled : Bool := false
  /-- Models `AuthService.hasValidGoogleAuth(userId)`. -/
  hasGoogleAuth : Bool := false
  webhookChannelId : Option String := none
  webhookResourceId : Option String := none
  webhookExpiration : Option Int := none
deriving DecidableEq, Repr

/-- The content hash stored with each mapping (`computeSyncHash` JSON payload:
title, description, date ISO string, time). -/
structure SyncHash where
  t : String
  d : Option String
  dt : Option Int
  tm : Option (Int × Int)
deriving DecidableEq, Repr

/-- `TaskMapping` row (`task-mapping.schema.ts`).  The schema declares
`index({ taskId: 1, provider: 1 }, { unique: true })`. -/
structure TaskMapping where
  taskId : Nat
  userId : Nat
  provider : String
  externalEventId : String
  externalCalendarId : String
  lastSyncedAt : Int
  syncHash : SyncHash
deriving DecidableEq, Repr

/-- `ConnectedCalendar` row (unique on (userId, externalId)). -/
structure ConnectedCalendar where
  userId : Nat
  provider : String := "google"
  externalId : String
  name : String := ""
  isPrimary : Bool := false
  isSynced : Bool := false
  webhookChannelId : Option String := none
  webhookResourceId : Option String := none
  webhookExpiration : Option Int := none
deriving DecidableEq, Repr

/-- `CalendarEvent` cache row (`calendar-event.schema.ts`; unique on
(userId, externalId)).  The schema's `end` field is named `endTime` here. -/
structure CalendarEvent where
  userId : Nat
  provider : String := "google"
  externalId : String
  calendarId : String
  title : String
  description : Option String := none
  start : Int
  endTime : Int
  allDay : Bool := false
  status : String := "confirmed"
  lastSyncedAt : Int
deriving DecidableEq, Repr

/-- Google API event date/time (`{ dateTime?, date? }`), with the string
values modelled already parsed to instants. -/
structure EventDateTime where
  dateTime : Option Int := none
  date : Option Int := none
deriving DecidableEq, Repr

/-- A remote Google event as returned by the client.  The
`extendedProperties.private.axis_task_id` back-reference is modelled as
`axisTaskId`. -/
structure GoogleEvent where
  id : Option String
  summary : Option String := none
  description : Option String := none
  start : Option EventDateTime := none
  endTime : Option EventDateTime := none
  status : Option String := none
  axisTaskId : Option Nat := none
deriving DecidableEq, Repr

/-- The payload handed to `createEvent` / `updateEvent`
(`EventData` in `google-calendar.service.ts`). -/
structure EventData where
  title : String
  description : Option String := none
  startDateTime : Int
  endDateTime : Int
  colorId : Option String := none
  axisProjectId : Option Nat := none
  axisTaskId : Option Nat := none
deriving DecidableEq, Repr

structure CalendarData where
  id : Option String
  name : Option String := none
  primary : Bool := false
deriving DecidableEq, Repr

structure WatchChannelData where
  channelId : String
  resourceId : String
  expiration : Int
deriving DecidableEq, Repr

/-- The whole mapping & record store (Mongo collections as lists).
`nextId` supplies fresh `_id`s for created rows. -/
structure Db where
  nextId : Nat := 0
  users : List User := []
  tasks : List Task := []
  projects : List Project := []
  mappings : List TaskMapping := []
  calendars : List ConnectedCalendar := []
  cache : List CalendarEvent := []
deriving Repr

/-- Remote Google Calendar client (wire-level oracle); every operation takes
the acting user's id first, as the real client resolves credentials per user. -/
structure Remote where
  findCalendarByName : Nat → String → Option CalendarData
  createCalendar : Nat → String → String → Except String CalendarData
  listEvents : Nat → String → Int → Int → Except String (List GoogleEvent)
  createEvent : Nat → String → EventData → Except String GoogleEvent
  updateEvent : Nat → String → String → EventData → Except String GoogleEvent
  deleteEvent : Nat → String → String → Except String Unit
  watchCalendar : Nat → String → String → Except String WatchChannelData
  stopWatch : Nat → String → String → Except String Unit

/-- Trace entry: one remote API call issued by the engine. -/
inductive RemoteCall where
  | findCalendarByName (userId : Nat) (name : String)
  | createCalendar (userId : Nat) (name : String)
  | listEvents (userId : Nat) (calendarId : String) (tmin tmax : Int)
  | createEvent (userId : Nat) (calendarId : String) (data : EventData)
  | updateEvent (userId : Nat) (calendarId : String) (eventId : String) (data : EventData)
  | deleteEvent (userId : Nat) (calendarId : String) (eventId : String)
  | watchCalendar (userId : Nat) (calendarId : String) (url : String)
  | stopWatch (userId : Nat) (channelId : String) (resourceId : String)
deriving DecidableEq, Repr

def RemoteCall.isCreateCalendar : RemoteCall → Bool
  | .createCalendar _ _ => true
  | _ => false

def RemoteCall.isCreateEvent : RemoteCall → Bool
  | .createEvent _ _ _ => true
  | _ => false

def RemoteCall.isUpdateEvent : RemoteCall → Bool
  | .updateEvent _ _ _ _ => true
  | _ => false

/-- Error taxonomy of the service layer. -/
inductive Err where
  | notFound (msg : String)
  | badRequest (msg : String)
  | remote (msg : String)
  | dupKey
deriving DecidableEq, Repr

def Err.message : Err → String
  | .notFound m => m
  | .badRequest m => m
  | .remote m => m
  | .dupKey => "E11000 duplicate key error"

-- ============================================
-- Store helpers
-- ============================================

def hasValidGoogleAuth (db : Db) (userId : Nat) : Bool :=
  match db.users.find? (fun u => u.id == userId) with
  | some u => u.hasGoogleAuth
  | none => false

def findTask (db : Db) (taskId : Nat) : Option Task :=
  db.tasks.find? (fun t => t.id == taskId)

def findUser (db : Db) (userId : Nat) : Option User :=
  db.users.find? (fun u => u.id == userId)

/-- Mongoose `document.save()` on a task: replace the row with the same id. -/
def saveTask (db : Db) (t : Task) : Db :=
  { db with tasks := db.tasks.map (fun u => if u.id == t.id then t else u) }

def saveUser (db : Db) (u : User) : Db :=
  { db with users := db.users.map (fun v => if v.id == u.id then u else v) }

def saveCalendarRow (db : Db) (userId : Nat) (externalId : String)
    (f : ConnectedCalendar → ConnectedCalendar) : Db :=
  { db with calendars := db.calendars.map (fun c =>
      if c.userId == userId && c.externalId == externalId then f c else c) }

/-- `taskMappingModel.findOne({ taskId, provider })`. -/
def findMappingByTask (db : Db) (taskId : Nat) (provider : String) : Option TaskMapping :=
  db.mappings.find? (fun m => m.taskId == taskId && m.provider == provider)

/-- `taskMappingModel.findOne({ externalEventId, provider })`. -/
def findMappingByEvent (db : Db) (eventId : String) (provider : String) : Option TaskMapping :=
  db.mappings.find? (fun m => m.externalEventId == eventId && m.provider == provider)

/-- `taskMappingModel.create(...)` under the schema's unique
(taskId, provider) index: the insert is rejected (duplicate key) when a row
with the same key already exists. -/
def insertMapping (db : Db) (m : TaskMapping) : Db × Bool :=
  if db.mappings.any (fun x => x.taskId == m.taskId && x.provider == m.provider) then
    (db, false)
  else
    ({ db with mappings := m :: db.mappings }, true)

/-- Remove the first list element satisfying `p` (Mongo `deleteOne`). -/
def removeFirst (p : α → Bool) : List α → List α
  | [] => []
  | x :: xs => if p x then xs else x :: removeFirst p xs

/-- `taskMappingModel.deleteOne({ _id: mapping._id })`, identified by the
unique (taskId, provider) key of the fetched document. -/
def deleteMappingByKey (db : Db) (taskId : Nat) (provider : String) : Db :=
  { db with mappings := removeFirst (fun m => m.taskId == taskId && m.provider == provider) db.mappings }

/-- Apply `f` to the first list element satisfying `p`. -/
def updateFirst (p : α → Bool) (f : α → α) : List α → List α
  | [] => []
  | x :: xs => if p x then f x :: xs else x :: updateFirst p f xs

/-- `mapping.save()` after mutating bookkeeping fields: replace the first row
with the given unique key. -/
def updateMappingRow (db : Db) (taskId : Nat) (provider : String)
    (f : TaskMapping → TaskMapping) : Db :=
  { db with mappings :=
      updateFirst (fun m => m.taskId == taskId && m.provider == provider) f db.mappings }

-- ============================================
-- SyncService: private helpers
-- ============================================

/-- `computeSyncHash(task)`. -/
def computeSyncHash (task : Task) : SyncHash :=
  { t := task.title, d := task.description, dt := task.date, tm := task.time }

/-- `taskToEventData(task, project)` of the current `SyncService`
(`projects.service.ts` 1296-1325): start = `task.date`, with the
time-of-day applied via `setHours` when `task.time` is present; end is
always start plus the default one-hour duration. -/
def taskToEventData (task : Task) (project : Option Project) : EventData :=
  let taskDate := task.date.getD 0
  let startDateTime :=
    match task.time with
    | some (h, m) => dayStart taskDate + h * (60 * 60 * 1000) + m * (60 * 1000)
    | none => taskDate
  let endDateTime := startDateTime + defaultEventDuration
  { title := task.title
    description := task.description
    startDateTime
    endDateTime
    colorId := project.bind (fun p => p.colorId)
    axisProjectId := project.map (fun p => p.id)
    axisTaskId := some task.id }

/-- `parseEventDateTime(event)`: the task date (date-only for timed events)
and the "HH:MM" time-of-day; `now` models `new Date()` for events with no
start at all. -/
def parseEventDateTime (event : GoogleEvent) (now : Int) : Int × Option (Int × Int) :=
  match event.start with
  | some s =>
    match s.dateTime with
    | some dt => (dayStart dt, some (hourOfDay dt, minuteOfHour dt))
    | none =>
      match s.date with
      | some d => (d, none)
      | none => (now, none)
  | none => (now, none)

/-- `parseEventDate(eventDate)` used by the cache writer. -/
def parseEventDate (eventDate : Option EventDateTime) (now : Int) : Int :=
  match eventDate with
  | some e =>
    match e.dateTime with
    | some dt => dt
    | none =>
      match e.date with
      | some d => d
      | none => now
  | none => now

/-- `isHolidayCalendar(calendarId)`. -/
def isHolidayCalendar (calendarId : String) : Bool :=
  containsSub calendarId "#holiday@group.v.calendar.google.com" ||
  containsSub calendarId "#contacts@group.v.calendar.google.com" ||
  containsSub calendarId "#weeknum@group.v.calendar.google.com" ||
  containsSub calendarId "addressbook#contacts@group.v.calendar.google.com"

/-- `getOrCreateInboxProject(userId)`. -/
def getOrCreateInboxProject (db : Db) (userId : Nat) : Db × Project :=
  match db.projects.find? (fun p => p.userId == userId && p.name == INBOX_PROJECT_NAME) with
  | some p => (db, p)
  | none =>
    let p : Project :=
      { id := db.nextId
        userId
        name := INBOX_PROJECT_NAME
        description := some "Default project for tasks synced from Google Calendar"
        status := "active"
        color := some "#808080" }
    ({ db with nextId := db.nextId + 1, projects := db.projects ++ [p] }, p)

-- ============================================
-- Push: task -> Google (syncTaskToGoogle)
-- ============================================

/-- The create-event tail of `syncTaskToGoogle`: create the remote event and,
when it carries an id, insert the (unique-index guarded) mapping. -/
def pushCreateEvent (remote : Remote) (db : Db) (userId : Nat) (task : Task)
    (targetCalendarId : String) (eventData : EventData) (calls : List RemoteCall)
    (now : Int) : Db × List RemoteCall × Except Err Task :=
  let calls := calls ++ [RemoteCall.createEvent userId targetCalendarId eventData]
  match remote.createEvent userId targetCalendarId eventData with
  | .error msg => (db, calls, .error (.remote msg))
  | .ok googleEvent =>
    match googleEvent.id with
    | some eid =>
      let (db, inserted) := insertMapping db
        { taskId := task.id
          userId := task.userId
          provider := "google"
          externalEventId := eid
          externalCalendarId := targetCalendarId
          lastSyncedAt := now
          syncHash := computeSyncHash task }
      if inserted then (db, calls, .ok task) else (db, calls, .error .dupKey)
    | none => (db, calls, .ok task)

/-- `syncTaskToGoogle(userId, taskId, calendarId?)`
(`projects.service.ts` 423-529). -/
def syncTaskToGoogle (remote : Remote) (db : Db) (userId taskId : Nat)
    (calendarId : Option String) (now : Int) : Db × List RemoteCall × Except Err Task :=
  if !hasValidGoogleAuth db userId then
    (db, [], .error (.badRequest "Google Calendar not connected. Please connect your Google account first."))
  else
    match findTask db taskId with
    | none => (db, [], .error (.notFound "Task not found"))
    | some task =>
      let mapping := findMappingByTask db task.id "google"
      -- Explicit Sync Policy: no mapping and no requested calendar => local only
      if mapping.isNone && calendarId.isNone then
        (db, [], .ok task)
      else
        let targetCalendarId :=
          match calendarId with
          | some c => some c
          | none => mapping.map (fun (m : TaskMapping) => m.externalCalendarId)
        match targetCalendarId with
        | none => (db, [], .error (.badRequest "Target calendar not specified"))
        | some targetCalendarId =>
          if task.date.isNone then
            (db, [], .error (.badRequest "Task must have a date to sync"))
          else
            let project := task.project.bind (fun (name : String) => db.projects.find? (fun p => p.name == name))
            let eventData := taskToEventData task project
            match mapping with
            | some m =>
              let calls := [RemoteCall.updateEvent userId m.externalCalendarId m.externalEventId eventData]
              match remote.updateEvent userId m.externalCalendarId m.externalEventId eventData with
              | .ok _ =>
                let db := updateMappingRow db m.taskId "google"
                  (fun mm => { mm with lastSyncedAt := now, syncHash := computeSyncHash task })
                (db, calls, .ok task)
              | .error msg =>
                if containsSub msg "not found" || containsSub msg "deleted" then
                  -- stale mapping: drop it and fall through to the create path
                  let db := deleteMappingByKey db m.taskId "google"
                  pushCreateEvent remote db userId task targetCalendarId eventData calls now
                else
                  (db, calls, .error (.remote msg))
            | none =>
              pushCreateEvent remote db userId task targetCalendarId eventData [] now

-- ============================================
-- Pull: Google event -> task (syncEventToTask)
-- ============================================

/-- `syncEventToTask(event, userId, calendarId)`
(`projects.service.ts` 770-879): resolution order is (1) mapping by external
event id, (2) embedded `axis_task_id` back-reference, (3) deprecated
`googleEventId` link, (4) heuristic (userId, exact title, exact date). -/
def syncEventToTask (db : Db) (event : GoogleEvent) (userId : Nat)
    (calendarId : String) (now : Int) : Db × Except Err Task :=
  let mapping := event.id.bind (fun eid => findMappingByEvent db eid "google")
  let task1 : Option Task := mapping.bind (fun m => findTask db m.taskId)
  let task2 : Option Task :=
    match task1, event.axisTaskId with
    | none, some tid => findTask db tid
    | t, _ => t
  let task3 : Option Task :=
    match task2, event.id with
    | none, some eid => db.tasks.find? (fun t => t.googleEventId == some eid)
    | t, _ => t
  let (date, time) := parseEventDateTime event now
  let task4 : Option Task :=
    match task3 with
    | none => db.tasks.find? (fun t =>
        t.userId == userId && some t.title == event.summary && t.date == some date)
    | t => t
  match task4 with
  | some t =>
    -- update the existing task in place
    let t := { t with
      title := match strOpt event.summary with | some s => s | none => t.title
      description := match event.description with | some s => some s | none => t.description
      date := some date
      time := time
      lastSyncedAt := some now
      userId := if t.userId == 0 then userId else t.userId }
    let db := saveTask db t
    -- ensure a mapping exists with the correct calendar id
    match mapping, event.id with
    | none, some eid =>
      let (db, inserted) := insertMapping db
        { taskId := t.id
          userId := t.userId
          provider := "google"
          externalEventId := eid
          externalCalendarId := calendarId
          lastSyncedAt := now
          syncHash := computeSyncHash t }
      if inserted then (db, .ok t) else (db, .error .dupKey)
    | some m, _ =>
      if m.externalCalendarId != calendarId then
        (updateMappingRow db m.taskId "google" (fun mm => { mm with externalCalendarId := calendarId }), .ok t)
      else
        (db, .ok t)
    | none, none => (db, .ok t)
  | none =>
    -- import: create a new Inbox task
    let (db, _) := getOrCreateInboxProject db userId
    let newTask : Task :=
      { id := db.nextId
        userId
        title := match strOpt event.summary with | some s => s | none => "Untitled Event"
        description := event.description
        project := some INBOX_PROJECT_NAME
        date := some date
        time := time
        lastSyncedAt := some now
        status := "todo"
        completed := false }
    let db := { db with nextId := db.nextId + 1, tasks := db.tasks ++ [newTask] }
    match event.id with
    | some eid =>
      let (db, inserted) := insertMapping db
        { taskId := newTask.id
          userId := newTask.userId
          provider := "google"
          externalEventId := eid
          externalCalendarId := calendarId
          lastSyncedAt := now
          syncHash := computeSyncHash newTask }
      if inserted then (db, .ok newTask) else (db, .error .dupKey)
    | none => (db, .ok newTask)

-- ============================================
-- CalendarEvent cache writer
-- ============================================

/-- `calendarEventModel.findOneAndUpdate({userId, externalId}, data, {upsert})`
under the schema's unique (userId, externalId) index. -/
def upsertCacheRow (db : Db) (row : CalendarEvent) : Db :=
  if db.cache.any (fun e => e.userId == row.userId && e.externalId == row.externalId) then
    { db with cache := db.cache.map (fun e =>
        if e.userId == row.userId && e.externalId == row.externalId then row else e) }
  else
    { db with cache := db.cache ++ [row] }

/-- `syncEventsToCache(userId, calendarId, events)`. -/
def syncEventsToCache (db : Db) (userId : Nat) (calendarId : String)
    (events : List GoogleEvent) (now : Int) : Db :=
  events.foldl (fun db event =>
    match event.id with
    | none => db
    | some eid =>
      upsertCacheRow db
        { userId
          provider := "google"
          externalId := eid
          calendarId
          title := match strOpt event.summary with | some s => s | none => "Untitled"
          description := strOpt event.description
          start := parseEventDate event.start now
          endTime := parseEventDate event.endTime now
          allDay := (event.start.bind (fun s => s.dateTime)).isNone
          status := match strOpt event.status with | some s => s | none => "confirmed"
          lastSyncedAt := now }) db

-- ============================================
-- Deletion reconciliation (handleDeletedGoogleEvents)
-- ============================================

/-- One iteration of the mapping loop in `handleDeletedGoogleEvents`:
skip mappings whose event is still present; otherwise force the task into
the terminal state and delete the mapping. -/
def handleDeletedStep (currentEventIds : List String)
    (acc : Db × Nat × List String) (m : TaskMapping) : Db × Nat × List String :=
  let (db, count, deletedIds) := acc
  if currentEventIds.contains m.externalEventId then acc
  else
    let db :=
      match findTask db m.taskId with
      | some t => saveTask db { t with status := "done", completed := true }
      | none => db
    let db := deleteMappingByKey db m.taskId "google"
    (db, count + 1, deletedIds ++ [m.externalEventId])

/-- `handleDeletedGoogleEvents(calendarId, currentEvents, userId)`
(`projects.service.ts` 928-981).  Returns the updated store and the number
of reconciled deletions. -/
def handleDeletedGoogleEvents (db : Db) (calendarId : String)
    (currentEvents : List GoogleEvent) (userId : Nat) : Db × Nat :=
  let currentEventIds := currentEvents.filterMap (fun e => e.id)
  let mappings := db.mappings.filter (fun m =>
    m.userId == userId && m.provider == "google" && m.externalCalendarId == calendarId)
  let (db, count, deletedIds) := mappings.foldl (handleDeletedStep currentEventIds) (db, 0, [])
  -- clean up CalendarEvent cache rows of the deleted events
  let db :=
    if deletedIds.isEmpty then db
    else { db with cache := db.cache.filter (fun e =>
      !(e.userId == userId && deletedIds.contains e.externalId)) }
  -- mark any remaining orphaned cache events as cancelled
  let db := { db with cache := db.cache.map (fun e =>
    if e.userId == userId && e.calendarId == calendarId &&
       !currentEventIds.contains e.externalId && e.status != "cancelled"
    then { e with status := "cancelled" } else e) }
  (db, count)

-- ============================================
-- Bulk pull (syncGoogleEventsToTasks)
-- ============================================

structure SyncResult where
  success : Bool
  synced : Nat
  failed : Nat
  errors : List String
deriving DecidableEq, Repr

/-- One event of the per-event loop of `syncGoogleEventsToTasks`. -/
def syncEventsStep (userId : Nat) (calendarId : String) (now : Int)
    (acc : Db × Nat × Nat × List String) (event : GoogleEvent) :
    Db × Nat × Nat × List String :=
  let (db, synced, failed, errors) := acc
  match syncEventToTask db event userId calendarId now with
  | (db, .ok _) => (db, synced + 1, failed, errors)
  | (db, .error e) =>
    (db, synced, failed + 1,
     errors ++ ["Event \"" ++ (event.summary.getD "undefined") ++ "\": " ++ e.message])

/-- The per-event loop of `syncGoogleEventsToTasks`: every event is attempted;
failures are counted and recorded without aborting the siblings. -/
def syncCalendarEvents (db : Db) (userId : Nat) (calendarId : String)
    (events : List GoogleEvent) (now : Int) : Db × Nat × Nat × List String :=
  events.foldl (syncEventsStep userId calendarId now) (db, 0, 0, [])

/-- The per-calendar body of `syncGoogleEventsToTasks`: list the remote
events in the rolling window, refresh the cache, run the per-event loop,
then reconcile deletions; a failure of the remote listing is recorded
against the calendar. -/
def syncOneCalendar (remote : Remote) (userId : Nat) (now : Int)
    (acc : Db × List RemoteCall × SyncResult) (cal : String × String) :
    Db × List RemoteCall × SyncResult :=
  let (db, calls, res) := acc
  let tmin := now - 90 * msPerDay
  let tmax := now + 180 * msPerDay
  let calls := calls ++ [RemoteCall.listEvents userId cal.1 tmin tmax]
  match remote.listEvents userId cal.1 tmin tmax with
  | .error msg =>
    (db, calls, { res with failed := res.failed + 1,
                           errors := res.errors ++ ["Calendar " ++ cal.2 ++ ": " ++ msg] })
  | .ok events =>
    let db := syncEventsToCache db userId cal.1 events now
    let (db, s, f, errs) := syncCalendarEvents db userId cal.1 events now
    let (db, deletedCount) := handleDeletedGoogleEvents db cal.1 events userId
    (db, calls, { res with synced := res.synced + s + deletedCount,
                           failed := res.failed + f,
                           errors := res.errors ++ errs })

/-- `syncGoogleEventsToTasks(userId, calendarId?)`
(`projects.service.ts` 677-765). -/
def syncGoogleEventsToTasks (remote : Remote) (db : Db) (userId : Nat)
    (calendarId : Option String) (now : Int) : Db × List RemoteCall × Except Err SyncResult :=
  if !hasValidGoogleAuth db userId then
    (db, [], .error (.badRequest "Google Calendar not connected. Please connect your Google account first."))
  else
    match calendarId with
    | some cid =>
      if isHolidayCalendar cid then
        (db, [], .ok { success := true, synced := 0, failed := 0, errors := [] })
      else
        let (db, calls, res) := syncOneCalendar remote userId now
          (db, [], { success := true, synced := 0, failed := 0, errors := [] }) (cid, cid)
        (db, calls, .ok { res with success := res.failed == 0 })
    | none =>
      let connected := db.calendars.filter (fun c =>
        c.userId == userId && c.provider == "google" && (c.isPrimary || c.isSynced))
      let cals := (connected.filter (fun c => !isHolidayCalendar c.externalId)).map
        (fun c => (c.externalId, c.name))
      let calendarsToSync := if cals.isEmpty then [("primary", "Primary Calendar")] else cals
      let (db, calls, res) := calendarsToSync.foldl (syncOneCalendar remote userId now)
        (db, [], { success := true, synced := 0, failed := 0, errors := [] })
      (db, calls, .ok { res with success := res.failed == 0 })

-- ============================================
-- Bulk push (syncAllTasksToGoogle)
-- ============================================

/-- The per-task loop of `syncAllTasksToGoogle`. -/
def syncAllStep (remote : Remote) (userId : Nat) (now : Int)
    (acc : Db × List RemoteCall × SyncResult) (task : Task) :
    Db × List RemoteCall × SyncResult :=
  let (db, calls, res) := acc
  match syncTaskToGoogle remote db userId task.id none now with
  | (db, c, .ok _) => (db, calls ++ c, { res with synced := res.synced + 1 })
  | (db, c, .error e) =>
    (db, calls ++ c, { res with failed := res.failed + 1,
                                errors := res.errors ++ ["Task \"" ++ task.title ++ "\": " ++ e.message] })

/-- The tasks eligible for a bulk push: tasks that already have a `google`
mapping for this user and carry a date. -/
def syncAllEligibleTasks (db : Db) (userId : Nat) : List Task :=
  let mappings := db.mappings.filter (fun m => m.userId == userId && m.provider == "google")
  let taskIds := mappings.map (fun m => m.taskId)
  db.tasks.filter (fun t => taskIds.contains t.id && t.date.isSome)

/-- `syncAllTasksToGoogle(userId)` (`projects.service.ts` 613-652): push only
already-mapped dated tasks, isolating per-task failures into the summary. -/
def syncAllTasksToGoogle (remote : Remote) (db : Db) (userId : Nat) (now : Int) :
    Db × List RemoteCall × Except Err SyncResult :=
  if !hasValidGoogleAuth db userId then
    (db, [], .error (.badRequest "Google Calendar not connected. Please connect your Google account first."))
  else
    let tasks := syncAllEligibleTasks db userId
    let (db, calls, res) := tasks.foldl (syncAllStep remote userId now)
      (db, [], { success := true, synced := 0, failed := 0, errors := [] })
    (db, calls, .ok { res with success := res.failed == 0 })

-- ============================================
-- Webhook management
-- ============================================

/-- One calendar of the `enableUserWebhook` loop: stop any existing channel,
open a new one, persist its state; failures are logged per calendar and
never abort the loop. -/
def enableWebhookStep (remote : Remote) (userId : Nat) (webhookUrl : String)
    (acc : Db × List RemoteCall) (cal : ConnectedCalendar) : Db × List RemoteCall :=
  let (db, calls) := acc
  if isHolidayCalendar cal.externalId then acc
  else
    let (stopRes, stopCalls) :=
      match cal.webhookChannelId, cal.webhookResourceId with
      | some ch, some rs => (remote.stopWatch userId ch rs, [RemoteCall.stopWatch userId ch rs])
      | _, _ => (Except.ok (), [])
    match stopRes with
    | .error _ => (db, calls ++ stopCalls)
    | .ok _ =>
      let calls := calls ++ stopCalls ++ [RemoteCall.watchCalendar userId cal.externalId webhookUrl]
      match remote.watchCalendar userId cal.externalId webhookUrl with
      | .error _ => (db, calls)
      | .ok w =>
        (saveCalendarRow db cal.userId cal.externalId (fun c =>
          { c with webhookChannelId := some w.channelId
                   webhookResourceId := some w.resourceId
                   webhookExpiration := some w.expiration }), calls)

/-- `enableUserWebhook(userId)` (`projects.service.ts` 990-1039). -/
def enableUserWebhook (remote : Remote) (db : Db) (userId : Nat)
    (webhookUrl : String) : Db × List RemoteCall × Except Err Unit :=
  if !hasValidGoogleAuth db userId then
    (db, [], .error (.badRequest "Google Calendar not connected. Please connect your Google account first."))
  else
    let cals := db.calendars.filter (fun c =>
      c.userId == userId && c.provider == "google" && (c.isPrimary || c.isSynced))
    let (db, calls) := cals.foldl (enableWebhookStep remote userId webhookUrl) (db, [])
    (db, calls, .ok ())

/-- `getUserByWebhookChannel(channelId)`. -/
def getUserByWebhookChannel (db : Db) (channelId : String) :
    Option (User × ConnectedCalendar) :=
  match db.calendars.find? (fun c => c.webhookChannelId == some channelId) with
  | none => none
  | some cal =>
    match findUser db cal.userId with
    | none => none
    | some user => some (user, cal)

/-- `handleWebhookNotification(channelId, resourceId)`
(`projects.service.ts` 1078-1111): unknown channels are logged and dropped;
pull failures are swallowed. -/
def handleWebhookNotification (remote : Remote) (db : Db)
    (channelId _resourceId : String) (now : Int) : Db × List RemoteCall × Except Err Unit :=
  match getUserByWebhookChannel db channelId with
  | none => (db, [], .ok ())
  | some (user, cal) =>
    if !hasValidGoogleAuth db user.id then (db, [], .ok ())
    else
      let (db, calls, _) := syncGoogleEventsToTasks remote db user.id (some cal.externalId) now
      (db, calls, .ok ())

/-- `WebhookController.handleGoogleCalendarWebhook`
(`sync/webhook.controller.ts` 21-39): `sync` handshakes are ignored, only
`exists`/`update` trigger the pull. -/
def handleGoogleCalendarWebhook (remote : Remote) (db : Db)
    (channelId resourceId resourceState : String) (now : Int) :
    Db × List RemoteCall × Except Err Unit :=
  if resourceState == "sync" then (db, [], .ok ())
  else if resourceState == "exists" || resourceState == "update" then
    handleWebhookNotification remote db channelId resourceId now
  else (db, [], .ok ())

-- ============================================
-- Dedicated calendar provisioning
-- ============================================

/-- `initializeDedicatedCalendar(userId)` (`projects.service.ts` 245-347).
`calendarName` models `getCalendarName()` and `webhookUrl` models
`getWebhookUrl()` (configuration). -/
def initializeDedicatedCalendar (remote : Remote) (db : Db) (userId : Nat)
    (calendarName webhookUrl : String) (now : Int) : Db × List RemoteCall × Except Err User :=
  if !hasValidGoogleAuth db userId then
    (db, [], .error (.badRequest "Google Calendar not connected. Please connect your Google account first."))
  else
    match findUser db userId with
    | none => (db, [], .error (.notFound "User not found"))
    | some user =>
      -- Early return if already fully initialized
      if user.dedicatedCalendarId.isSome && user.autoSyncEnabled then
        (db, [], .ok user)
      else
        let calendarId0 := user.dedicatedCalendarId
        -- ALWAYS check Google for an existing calendar with this name first
        let existing := remote.findCalendarByName userId calendarName
        let calls := [RemoteCall.findCalendarByName userId calendarName]
        let resolved : List RemoteCall × Except Err String :=
          match strOpt (existing.bind (fun c => c.id)) with
          | some cid => ([], .ok cid)
          | none =>
            match calendarId0 with
            | some cid => ([], .ok cid)
            | none =>
              -- only create when none found AND no id stored
              match remote.createCalendar userId calendarName
                      "Tasks and events from your Time Management app" with
              | .error msg => ([RemoteCall.createCalendar userId calendarName], .error (.remote msg))
              | .ok newCal =>
                match strOpt newCal.id with
                | none => ([RemoteCall.createCalendar userId calendarName],
                           .error (.remote "Failed to create dedicated calendar"))
                | some cid => ([RemoteCall.createCalendar userId calendarName], .ok cid)
        match resolved with
        | (c2, .error e) => (db, calls ++ c2, .error e)
        | (c2, .ok resolvedId) =>
          let calls := calls ++ c2
          -- conditional update: apply only if the stored id is unset or equal
          if user.dedicatedCalendarId.isNone || user.dedicatedCalendarId == some resolvedId then
            let user := { user with dedicatedCalendarId := some resolvedId, autoSyncEnabled := true }
            let db := saveUser db user
            match enableUserWebhook remote db userId webhookUrl with
            | (db, c3, .error e) => (db, calls ++ c3, .error e)
            | (db, c3, .ok _) =>
              let (db, _) := getOrCreateInboxProject db userId
              match syncAllTasksToGoogle remote db userId now with
              | (db, c4, .error e) => (db, calls ++ c3 ++ c4, .error e)
              | (db, c4, .ok _) => (db, calls ++ c3 ++ c4, .ok user)
          else
            -- another process already set a different id: re-read and return it
            match findUser db userId with
            | none => (db, calls, .error (.notFound "User not found"))
            | some fresh => (db, calls, .ok fresh)

-- ============================================
-- TasksService.create (explicit-sync trigger)
-- ============================================

/-- `CreateTaskDto` fields the sync path cares about. -/
structure CreateTaskDto where
  title : String
  description : Option String := none
  project : Option String := none
  date : Option Int := none
  time : Option (Int × Int) := none
  calendarId : Option String := none
deriving DecidableEq, Repr

/-- `TasksService.create(userId, dto)`: save the task, then trigger an
explicit sync only when `dto.calendarId` is provided (fire-and-forget, so
sync failures are swallowed). -/
def tasksCreate (remote : Remote) (db : Db) (userId : Nat) (dto : CreateTaskDto)
    (now : Int) : Db × List RemoteCall × Task :=
  let newTask : Task :=
    { id := db.nextId
      userId
      title := dto.title
      description := dto.description
      project := dto.project
      date := dto.date
      time := dto.time }
  let db := { db with nextId := db.nextId + 1, tasks := db.tasks ++ [newTask] }
  match dto.calendarId with
  | some cid =>
    let (db, calls, _) := syncTaskToGoogle remote db userId newTask.id (some cid) now
    (db, calls, newTask)
  | none => (db, [], newTask)

-- ============================================
-- Invariants
-- ============================================

/-- Two mapping rows collide on the unique (taskId, provider) index. -/
def MappingKeyClash (a b : TaskMapping) : Prop :=
  a.taskId = b.taskId ∧ a.provider = b.provider

instance : DecidablePred (fun p : TaskMapping × TaskMapping => MappingKeyClash p.1 p.2) :=
  fun p => by unfold MappingKeyClash; infer_instance

instance (a b : TaskMapping) : Decidable (MappingKeyClash a b) := by
  unfold MappingKeyClash; infer_instance

/-- The store satisfies the schema's unique (taskId, provider) index:
no two mapping rows share a key. -/
def MappingUnique (db : Db) : Prop :=
  db.mappings.Pairwise (fun a b => ¬ MappingKeyClash a b)

instance (db : Db) : Decidable (MappingUnique db) := by
  unfold MappingUnique; exact List.instDecidablePairwise _

/-- A task row with the given id exists and is in the terminal state
(status "done", completed true). -/
def TaskDone (db : Db) (tid : Nat) : Prop :=
  ∃ t ∈ db.tasks, t.id = tid ∧ t.status = "done" ∧ t.completed = true

instance (db : Db) (tid : Nat) : Decidable (TaskDone db tid) := by
  unfold TaskDone; infer_instance

/-- Ids of the stale mappings a reconciliation run removes: mappings of this
user/calendar whose external event id is absent from the fetched set. -/
def staleMappingEventIds (db : Db) (calendarId : String)
    (currentEventIds : List String) (userId : Nat) : List String :=
  ((db.mappings.filter (fun m =>
      m.userId == userId && m.provider == "google" && m.externalCalendarId == calendarId)).filter
    (fun m => !currentEventIds.contains m.externalEventId)).map (fun m => m.externalEventId)

-- ============================================
-- Concrete fixtures (used by witnesses and counterexamples)
-- ============================================

/-- A remote oracle on which every call succeeds; created events get id "ev1". -/
def okRemote : Remote :=
  { findCalendarByName := fun _ _ => none
    createCalendar := fun _ n _ => .ok { id := some ("cal-" ++ n) }
    listEvents := fun _ _ _ _ => .ok []
    createEvent := fun _ _ d => .ok { id := some "ev1", summary := some d.title }
    updateEvent := fun _ _ e _ => .ok { id := some e }
    deleteEvent := fun _ _ _ => .ok ()
    watchCalendar := fun _ c _ => .ok { channelId := "ch-" ++ c, resourceId := "rs-" ++ c, expiration := 99 }
    stopWatch := fun _ _ _ => .ok () }

/-- A remote oracle whose event update fails (with a non-recoverable error)
exactly for event id "evB", and whose event listing fails for calendar
"badcal". -/
def failRemote : Remote :=
  { okRemote with
    updateEvent := fun _ _ e _ =>
      if e == "evB" then .error "API error" else .ok { id := some e }
    listEvents := fun _ c _ _ =>
      if c == "badcal" then .error "list failed" else .ok [] }

/-- The spec scenario task: title "Standup", date 2026-01-05T09:00Z. -/
def standup : Task := { id := 10, userId := 1, title := "Standup", date := some 1767603600000 }

def db0 : Db := { nextId := 100, users := [{ id := 1, hasGoogleAuth := true }], tasks := [standup] }

/-- A task carrying an explicit end instant (2026-01-05T11:00Z). -/
def taskWithEnd : Task :=
  { id := 11, userId := 1, title := "Standup", date := some 1767603600000,
    scheduledEndDate := some 1767610800000 }

def mDel : TaskMapping :=
  { taskId := 10, userId := 1, provider := "google", externalEventId := "evX",
    externalCalendarId := "cal1", lastSyncedAt := 0, syncHash := computeSyncHash standup }

def dbDel : Db :=
  { db0 with
    mappings := [mDel]
    cache := [{ userId := 1, externalId := "evX", calendarId := "cal1", title := "Standup",
                start := 0, endTime := 1, lastSyncedAt := 0 },
               { userId := 1, externalId := "evY", calendarId := "cal1", title := "Other",
                 start := 0, endTime := 1, lastSyncedAt := 0 }] }

/-- The spec scenario pull event: title "Dentist", all-day 2026-02-01, no
mapping and no back-reference. -/
def dentistEvent : GoogleEvent :=
  { id := some "evD", summary := some "Dentist", start := some { date := some 1769904000000 } }

def dentistTask : Task := { id := 20, userId := 1, title := "Dentist", date := some 1769904000000 }

def dbH : Db := { db0 with tasks := [dentistTask] }

def dbU : Db := { nextId := 50, users := [{ id := 1, hasGoogleAuth := true }] }

/-- The user record produced by provisioning user 1 against `okRemote`. -/
def uProv : User :=
  { id := 1, dedicatedCalendarId := some "cal-Axis", autoSyncEnabled := true,
    hasGoogleAuth := true }

/-- The remote trace of the first provisioning call on `dbU`. -/
def tProv : List RemoteCall :=
  [.findCalendarByName 1 "Axis", .createCalendar 1 "Axis"]

/-- The store produced by the first provisioning call on `dbU`
(dedicated calendar recorded, sync enabled, Inbox project created). -/
def dbProv : Db :=
  { nextId := 51, users := [uProv],
    projects := [{ id := 50, userId := 1, name := "Inbox",
                   description := some "Default project for tasks synced from Google Calendar",
                   status := "active", color := some "#808080" }] }


def tA : Task := { id := 1, userId := 1, title := "A", date := some 100 }

def tB : Task := { id := 2, userId := 1, title := "B", date := some 100 }

def tC : Task := { id := 3, userId := 1, title := "C", date := some 100 }

def mOf (t : Task) (e : String) : TaskMapping :=
  { taskId := t.id, userId := 1, provider := "google", externalEventId := e,
    externalCalendarId := "cal1", lastSyncedAt := 0, syncHash := computeSyncHash t }

def dbAll : Db :=
  { nextId := 9, users := [{ id := 1, hasGoogleAuth := true }], tasks := [tA, tB, tC],
    mappings := [mOf tA "evA", mOf tB "evB", mOf tC "evC"] }

/-- A store whose only connected calendar listens on channel "known-ch". -/
def dbW : Db :=
  { nextId := 5, users := [{ id := 1, hasGoogleAuth := true }],
    calendars := [{ userId := 1, externalId := "calW", name := "W", isPrimary := true,
                    webhookChannelId := some "known-ch", webhookResourceId := some "rs" }] }

/-- A task owned by user 2 (the victim of the missing ownership check). -/
def victimTask : Task := { id := 30, userId := 2, title := "Victim", date := some 1000 }

def dbX : Db :=
  { nextId := 40, users := [{ id := 1, hasGoogleAuth := true }, { id := 2 }],
    tasks := [victimTask] }

-- ============================================
-- Generic list lemmas
-- ============================================

theorem foldl_invariant {α β : Type _} (f : β → α → β) (P : β → Prop) (l : List α) (b : β)
    (h0 : P b) (hstep : ∀ x a, P x → P (f x a)) : P (l.foldl f b) := by
  induction l generalizing b with
  | nil => exact h0
  | cons a l ih => exact ih _ (hstep _ _ h0)

theorem removeFirst_sublist (p : α → Bool) (l : List α) : (removeFirst p l).Sublist l := by
  induction l with
  | nil => simp [removeFirst]
  | cons x xs ih =>
    unfold removeFirst
    split
    · exact List.sublist_cons_self x xs
    · exact ih.cons₂ x

theorem mem_updateFirst {p : α → Bool} {f : α → α} {l : List α} {y : α}
    (h : y ∈ updateFirst p f l) : y ∈ l ∨ ∃ z ∈ l, y = f z := by
  induction l with
  | nil => simp [updateFirst] at h
  | cons x xs ih =>
    unfold updateFirst at h
    by_cases hp : p x
    · simp only [hp, if_true, List.mem_cons] at h
      rcases h with h | h
      · exact Or.inr ⟨x, List.mem_cons_self x xs, h⟩
      · exact Or.inl (List.mem_cons_of_mem x h)
    · rw [if_neg hp, List.mem_cons] at h
      rcases h with h | h
      · exact Or.inl (h ▸ List.mem_cons_self x xs)
      · rcases ih h with h2 | ⟨z, hz, rfl⟩
        · exact Or.inl (List.mem_cons_of_mem x h2)
        · exact Or.inr ⟨z, List.mem_cons_of_mem x hz, rfl⟩

-- ============================================
-- Mapping-uniqueness preservation helpers
-- ============================================

theorem pairwise_updateFirst_key_preserving
    {l : List TaskMapping} (p : TaskMapping → Bool) (f : TaskMapping → TaskMapping)
    (hf : ∀ m, (f m).taskId = m.taskId ∧ (f m).provider = m.provider)
    (h : l.Pairwise (fun a b => ¬ MappingKeyClash a b)) :
    (updateFirst p f l).Pairwise (fun a b => ¬ MappingKeyClash a b) := by
  induction l with
  | nil => simp [updateFirst]
  | cons x xs ih =>
    rw [List.pairwise_cons] at h
    unfold updateFirst
    split
    · rw [List.pairwise_cons]
      refine ⟨?_, h.2⟩
      intro y hy hclash
      rcases hclash with ⟨h1, h2⟩
      exact h.1 y hy ⟨((hf x).1).symm.trans h1, ((hf x).2).symm.trans h2⟩
    · rw [List.pairwise_cons]
      refine ⟨?_, ih h.2⟩
      intro y hy
      rcases mem_updateFirst hy with hy2 | ⟨z, hz, rfl⟩
      · exact h.1 y hy2
      · intro hclash
        rcases hclash with ⟨h1, h2⟩
        exact h.1 z hz ⟨h1.trans (hf z).1, h2.trans (hf z).2⟩

theorem mappingUnique_insertMapping (db : Db) (m : TaskMapping)
    (h : MappingUnique db) : MappingUnique (insertMapping db m).1 := by
  unfold insertMapping
  split
  · exact h
  · next hany =>
    unfold MappingUnique
    rw [List.pairwise_cons]
    refine ⟨?_, h⟩
    intro x hx hclash
    rcases hclash with ⟨h1, h2⟩
    rw [List.any_eq_true] at hany
    exact hany ⟨x, hx, by simp [h1, h2]⟩

theorem mappingUnique_deleteMappingByKey (db : Db) (tid : Nat) (prov : String)
    (h : MappingUnique db) : MappingUnique (deleteMappingByKey db tid prov) :=
  h.sublist (removeFirst_sublist _ _)

theorem mappingUnique_updateMappingRow (db : Db) (tid : Nat) (prov : String)
    (f : TaskMapping → TaskMapping)
    (hf : ∀ m, (f m).taskId = m.taskId ∧ (f m).provider = m.provider)
    (h : MappingUnique db) : MappingUnique (updateMappingRow db tid prov f) :=
  pairwise_updateFirst_key_preserving _ f hf h

theorem getOrCreateInboxProject_mappings (db : Db) (u : Nat) :
    ((getOrCreateInboxProject db u).1).mappings = db.mappings := by
  unfold getOrCreateInboxProject
  split <;> rfl

theorem syncEventsToCache_mappings (db : Db) (userId : Nat) (cal : String)
    (events : List GoogleEvent) (now : Int) :
    (syncEventsToCache db userId cal events now).mappings = db.mappings := by
  unfold syncEventsToCache
  refine foldl_invariant _ (fun (x : Db) => x.mappings = db.mappings) _ _ rfl ?_
  intro x a hx
  dsimp only
  split
  · exact hx
  · unfold upsertCacheRow
    split <;> exact hx

theorem mappingUnique_pushCreateEvent (remote : Remote) (db : Db) (userId : Nat)
    (task : Task) (cal : String) (data : EventData) (calls : List RemoteCall) (now : Int)
    (h : MappingUnique db) :
    MappingUnique (pushCreateEvent remote db userId task cal data calls now).1 := by
  unfold pushCreateEvent
  dsimp only
  split
  · exact h
  · split
    · split
      · exact mappingUnique_insertMapping _ _ h
      · exact mappingUnique_insertMapping _ _ h
    · exact h

theorem mappingUnique_syncTaskToGoogle (remote : Remote) (db : Db)
    (userId taskId : Nat) (calendarId : Option String) (now : Int)
    (h : MappingUnique db) :
    MappingUnique (syncTaskToGoogle remote db userId taskId calendarId now).1 := by
  unfold syncTaskToGoogle
  dsimp only
  split
  · exact h
  · split
    · exact h
    · split
      · exact h
      · split
        · exact h
        · split
          · exact h
          · split
            · split
              · exact mappingUnique_updateMappingRow _ _ _ _ (fun mm => ⟨rfl, rfl⟩) h
              · split
                · exact mappingUnique_pushCreateEvent _ _ _ _ _ _ _ _
                    (mappingUnique_deleteMappingByKey _ _ _ h)
                · exact h
            · exact mappingUnique_pushCreateEvent _ _ _ _ _ _ _ _ h

theorem mappingUnique_ite_fst {γ : Type _} {c : Prop} [Decidable c] {x y : Db × γ}
    (hx : MappingUnique x.1) (hy : MappingUnique y.1) :
    MappingUnique (if c then x else y).1 := by
  split
  · exact hx
  · exact hy

theorem mappingUnique_syncEventToTask (db : Db) (event : GoogleEvent)
    (userId : Nat) (calendarId : String) (now : Int) (h : MappingUnique db) :
    MappingUnique (syncEventToTask db event userId calendarId now).1 := by
  have hinbox : MappingUnique ((getOrCreateInboxProject db userId).1) := by
    unfold MappingUnique
    rw [getOrCreateInboxProject_mappings]
    exact h
  unfold syncEventToTask
  dsimp only
  split
  · split
    · exact mappingUnique_ite_fst
        (mappingUnique_insertMapping _ _ h) (mappingUnique_insertMapping _ _ h)
    · exact mappingUnique_ite_fst
        (mappingUnique_updateMappingRow _ _ _ _ (fun mm => ⟨rfl, rfl⟩) h) h
    · exact h
  · split
    · exact mappingUnique_ite_fst
        (mappingUnique_insertMapping _ _ hinbox) (mappingUnique_insertMapping _ _ hinbox)
    · exact hinbox

theorem mappingUnique_handleDeletedStep (ids : List String)
    (acc : Db × Nat × List String) (m : TaskMapping) (h : MappingUnique acc.1) :
    MappingUnique ((handleDeletedStep ids acc m).1) := by
  unfold handleDeletedStep
  dsimp only
  split
  · exact h
  · split
    · exact mappingUnique_deleteMappingByKey _ _ _ h
    · exact mappingUnique_deleteMappingByKey _ _ _ h

theorem mappingUnique_handleDeletedGoogleEvents (db : Db) (cal : String)
    (events : List GoogleEvent) (userId : Nat) (h : MappingUnique db) :
    MappingUnique (handleDeletedGoogleEvents db cal events userId).1 := by
  unfold handleDeletedGoogleEvents
  dsimp only
  have hfold : MappingUnique
      ((db.mappings.filter (fun m =>
          m.userId == userId && m.provider == "google" && m.externalCalendarId == cal)).foldl
        (handleDeletedStep (events.filterMap (fun e => e.id))) (db, 0, [])).1 :=
    foldl_invariant _ (fun (acc : Db × Nat × List String) => MappingUnique acc.1) _ _ h
      (fun x a hx => mappingUnique_handleDeletedStep _ _ _ hx)
  split
  · exact hfold
  · exact hfold

theorem mappingUnique_syncCalendarEvents (db : Db) (userId : Nat) (cal : String)
    (events : List GoogleEvent) (now : Int) (h : MappingUnique db) :
    MappingUnique (syncCalendarEvents db userId cal events now).1 := by
  unfold syncCalendarEvents
  refine foldl_invariant _ (fun (acc : Db × Nat × Nat × List String) => MappingUnique acc.1) _ _ h ?_
  intro x a hx
  have h2 := mappingUnique_syncEventToTask x.1 a userId cal now hx
  unfold syncEventsStep
  dsimp only
  split
  · next heq => rw [heq] at h2; exact h2
  · next heq => rw [heq] at h2; exact h2

theorem mappingUnique_syncOneCalendar (remote : Remote) (userId : Nat) (now : Int)
    (acc : Db × List RemoteCall × SyncResult) (cal : String × String)
    (h : MappingUnique acc.1) :
    MappingUnique ((syncOneCalendar remote userId now acc cal).1) := by
  unfold syncOneCalendar
  dsimp only
  split
  · exact h
  · next events heq =>
    have hcache : MappingUnique (syncEventsToCache acc.1 userId cal.1 events now) := by
      unfold MappingUnique
      rw [syncEventsToCache_mappings]
      exact h
    exact mappingUnique_handleDeletedGoogleEvents _ _ _ _
      (mappingUnique_syncCalendarEvents _ _ _ _ _ hcache)

theorem mappingUnique_syncGoogleEventsToTasks (remote : Remote) (db : Db)
    (userId : Nat) (calendarId : Option String) (now : Int) (h : MappingUnique db) :
    MappingUnique (syncGoogleEventsToTasks remote db userId calendarId now).1 := by
  unfold syncGoogleEventsToTasks
  dsimp only
  split
  · exact h
  · split
    · split
      · exact h
      · exact mappingUnique_syncOneCalendar _ _ _ _ _ h
    · exact foldl_invariant _ (fun (acc : Db × List RemoteCall × SyncResult) => MappingUnique acc.1) _ _ h
        (fun x a hx => mappingUnique_syncOneCalendar _ _ _ _ _ hx)

-- ============================================
-- Reconciliation (handleDeletedGoogleEvents) characterization
-- ============================================

theorem saveTask_task_ids (db : Db) (t : Task) :
    (saveTask db t).tasks.map (fun x => x.id) = db.tasks.map (fun x => x.id) := by
  unfold saveTask
  dsimp only
  rw [List.map_map]
  apply List.map_congr_left
  intro a _
  dsimp only [Function.comp]
  split
  · next hc => exact (beq_iff_eq.mp hc).symm
  · rfl

theorem handleDeletedStep_task_ids (ids : List String) (acc : Db × Nat × List String)
    (m : TaskMapping) :
    ((handleDeletedStep ids acc m).1).tasks.map (fun x => x.id) =
      acc.1.tasks.map (fun x => x.id) := by
  unfold handleDeletedStep
  dsimp only
  split
  · rfl
  · split
    · exact saveTask_task_ids _ _
    · rfl

theorem handleDeletedStep_cache (ids : List String) (acc : Db × Nat × List String)
    (m : TaskMapping) : ((handleDeletedStep ids acc m).1).cache = acc.1.cache := by
  unfold handleDeletedStep
  dsimp only
  split
  · rfl
  · split
    · rfl
    · rfl

theorem handleDeletedStep_mappings_sublist (ids : List String)
    (acc : Db × Nat × List String) (m : TaskMapping) :
    ((handleDeletedStep ids acc m).1).mappings.Sublist acc.1.mappings := by
  unfold handleDeletedStep
  dsimp only
  split
  · exact List.Sublist.refl _
  · split
    · exact removeFirst_sublist _ _
    · exact removeFirst_sublist _ _

theorem taskDone_saveTask_done (db : Db) (x : Task) (tid : Nat)
    (hx : x.status = "done" ∧ x.completed = true) (h : TaskDone db tid) :
    TaskDone (saveTask db x) tid := by
  obtain ⟨t, ht, hid, hst, hcp⟩ := h
  unfold saveTask TaskDone
  dsimp only
  refine ⟨if t.id == x.id then x else t, List.mem_map.mpr ⟨t, ht, rfl⟩, ?_⟩
  split
  · next hc => exact ⟨((beq_iff_eq.mp hc).symm).trans hid, hx.1, hx.2⟩
  · exact ⟨hid, hst, hcp⟩

theorem taskDone_handleDeletedStep (ids : List String) (acc : Db × Nat × List String)
    (m : TaskMapping) (tid : Nat) (h : TaskDone acc.1 tid) :
    TaskDone ((handleDeletedStep ids acc m).1) tid := by
  unfold handleDeletedStep
  dsimp only
  split
  · exact h
  · split
    · exact taskDone_saveTask_done _ _ _ ⟨rfl, rfl⟩ h
    · exact h

theorem removeFirst_key_absent (l : List TaskMapping) (tid : Nat) (prov : String)
    (h : l.Pairwise (fun a b => ¬ MappingKeyClash a b)) :
    ∀ x ∈ removeFirst (fun m => m.taskId == tid && m.provider == prov) l,
      ¬(x.taskId = tid ∧ x.provider = prov) := by
  induction l with
  | nil => intro x hx; simp [removeFirst] at hx
  | cons y ys ih =>
    rw [List.pairwise_cons] at h
    intro x hx hkey
    unfold removeFirst at hx
    by_cases hy : (y.taskId == tid && y.provider == prov) = true
    · rw [if_pos hy] at hx
      simp only [Bool.and_eq_true, beq_iff_eq] at hy
      exact h.1 x hx ⟨hy.1.trans hkey.1.symm, hy.2.trans hkey.2.symm⟩
    · rw [if_neg hy] at hx
      rcases List.mem_cons.mp hx with rfl | hx2
      · exact hy (by simp [hkey.1, hkey.2])
      · exact ih h.2 x hx2 hkey

theorem keyAbsent_handleDeletedStep (ids : List String) (acc : Db × Nat × List String)
    (m : TaskMapping) (tid : Nat) (prov : String)
    (h : ∀ x ∈ acc.1.mappings, ¬(x.taskId = tid ∧ x.provider = prov)) :
    ∀ x ∈ ((handleDeletedStep ids acc m).1).mappings,
      ¬(x.taskId = tid ∧ x.provider = prov) := by
  intro x hx
  exact h x ((handleDeletedStep_mappings_sublist ids acc m).subset hx)

theorem handleDeletedFold_task_ids (ids : List String) (ms : List TaskMapping)
    (acc : Db × Nat × List String) :
    ((ms.foldl (handleDeletedStep ids) acc).1).tasks.map (fun x => x.id) =
      acc.1.tasks.map (fun x => x.id) := by
  induction ms generalizing acc with
  | nil => rfl
  | cons m ms ih =>
    rw [List.foldl_cons, ih, handleDeletedStep_task_ids]

theorem handleDeletedFold_cache (ids : List String) (ms : List TaskMapping)
    (acc : Db × Nat × List String) :
    ((ms.foldl (handleDeletedStep ids) acc).1).cache = acc.1.cache := by
  induction ms generalizing acc with
  | nil => rfl
  | cons m ms ih =>
    rw [List.foldl_cons, ih, handleDeletedStep_cache]

theorem handleDeletedFold_mappings_sublist (ids : List String) (ms : List TaskMapping)
    (acc : Db × Nat × List String) :
    ((ms.foldl (handleDeletedStep ids) acc).1).mappings.Sublist acc.1.mappings := by
  induction ms generalizing acc with
  | nil => exact List.Sublist.refl _
  | cons m ms ih =>
    rw [List.foldl_cons]
    exact (ih _).trans (handleDeletedStep_mappings_sublist ids acc m)

theorem handleDeletedFold_deletedIds (ids : List String) (ms : List TaskMapping)
    (acc : Db × Nat × List String) :
    (ms.foldl (handleDeletedStep ids) acc).2.2 =
      acc.2.2 ++ (ms.filter (fun m => !ids.contains m.externalEventId)).map
        (fun m => m.externalEventId) := by
  induction ms generalizing acc with
  | nil => simp
  | cons m ms ih =>
    rw [List.foldl_cons, List.filter_cons]
    by_cases hc : ids.contains m.externalEventId = true
    · have hstep : handleDeletedStep ids acc m = acc := by
        unfold handleDeletedStep
        dsimp only
        rw [if_pos hc]
      rw [hstep, ih, if_neg (by simpa using hc)]
    · have hstep2 : handleDeletedStep ids acc m =
          (deleteMappingByKey
            (match findTask acc.1 m.taskId with
             | some t => saveTask acc.1 { t with status := "done", completed := true }
             | none => acc.1) m.taskId "google",
           acc.2.1 + 1, acc.2.2 ++ [m.externalEventId]) := by
        unfold handleDeletedStep
        dsimp only
        rw [if_neg hc]
      rw [hstep2, ih, if_pos (by simpa using hc), List.map_cons]
      dsimp only
      rw [List.append_cons, List.append_assoc]
      simp

/-- Processing a stale mapping `m` in the reconciliation fold removes every
(m.taskId, "google") mapping, forces the mapped task into the terminal state,
and deletes no task record. -/
theorem handleDeletedFold_processes (ids : List String) (db0 : Db)
    (l1 l2 : List TaskMapping) (m : TaskMapping)
    (huniq : db0.mappings.Pairwise (fun a b => ¬ MappingKeyClash a b))
    (habsent : ids.contains m.externalEventId = false)
    (hpresent : m.taskId ∈ db0.tasks.map (fun x => x.id)) :
    (∀ x ∈ (((l1 ++ m :: l2).foldl (handleDeletedStep ids) (db0, 0, [])).1).mappings,
        ¬(x.taskId = m.taskId ∧ x.provider = "google")) ∧
    TaskDone (((l1 ++ m :: l2).foldl (handleDeletedStep ids) (db0, 0, [])).1) m.taskId ∧
    (((l1 ++ m :: l2).foldl (handleDeletedStep ids) (db0, 0, [])).1).tasks.map (fun x => x.id) =
      db0.tasks.map (fun x => x.id) := by
  rw [List.foldl_append, List.foldl_cons]
  set acc1 := l1.foldl (handleDeletedStep ids) (db0, 0, []) with hacc
  -- state after the prefix
  have hids1 : (acc1.1).tasks.map (fun x => x.id) = db0.tasks.map (fun x => x.id) := by
    rw [hacc]; exact handleDeletedFold_task_ids ids l1 _
  have hsub1 : (acc1.1).mappings.Sublist db0.mappings := by
    rw [hacc]; exact handleDeletedFold_mappings_sublist ids l1 _
  have huniq1 := List.Pairwise.sublist hsub1 huniq
  -- the task to be completed is still present
  have hpresent1 : m.taskId ∈ (acc1.1).tasks.map (fun x => x.id) := by
    rw [hids1]; exact hpresent
  obtain ⟨tsk, htskmem, htskid⟩ := List.mem_map.mp hpresent1
  have hfind : ((acc1.1).tasks.find? (fun t => t.id == m.taskId)).isSome := by
    rw [List.find?_isSome]
    exact ⟨tsk, htskmem, by simp [htskid]⟩
  obtain ⟨tfound, htfound⟩ := Option.isSome_iff_exists.mp hfind
  have htfoundid : tfound.id = m.taskId := by
    have hb := List.find?_some htfound
    simpa using hb
  -- the step on m itself
  have hstep : handleDeletedStep ids acc1 m =
      (deleteMappingByKey
        (saveTask (acc1.1) { tfound with status := "done", completed := true }) m.taskId "google",
       acc1.2.1 + 1, acc1.2.2 ++ [m.externalEventId]) := by
    unfold handleDeletedStep findTask
    dsimp only
    rw [if_neg (by simpa using habsent), htfound]
  have habsent2 : ∀ x ∈ ((handleDeletedStep ids acc1 m).1).mappings,
      ¬(x.taskId = m.taskId ∧ x.provider = "google") := by
    rw [hstep]
    exact removeFirst_key_absent _ _ _ huniq1
  have htfoundmem : tfound ∈ (acc1.1).tasks :=
    List.mem_of_find?_eq_some htfound
  have hdone2 : TaskDone ((handleDeletedStep ids acc1 m).1) m.taskId := by
    rw [hstep]
    exact ⟨{ tfound with status := "done", completed := true },
      List.mem_map.mpr ⟨tfound, htfoundmem, by simp⟩, htfoundid, rfl, rfl⟩
  have hids2 : ((handleDeletedStep ids acc1 m).1).tasks.map
      (fun x => x.id) = db0.tasks.map (fun x => x.id) := by
    rw [handleDeletedStep_task_ids]
    exact hids1
  exact foldl_invariant (handleDeletedStep ids)
    (fun acc => (∀ x ∈ acc.1.mappings, ¬(x.taskId = m.taskId ∧ x.provider = "google")) ∧
      TaskDone acc.1 m.taskId ∧
      acc.1.tasks.map (fun x => x.id) = db0.tasks.map (fun x => x.id)) l2 _
    ⟨habsent2, hdone2, hids2⟩
    (fun x a hx => ⟨keyAbsent_handleDeletedStep _ _ _ _ _ hx.1,
      taskDone_handleDeletedStep _ _ _ _ hx.2.1,
      by rw [handleDeletedStep_task_ids]; exact hx.2.2⟩)


-- ============================================
-- Claim C1: mapping uniqueness invariant
-- ============================================

/-- C1: at most one TaskMapping row exists per (task id, provider) — the
schema's unique index — and every operation that creates or repairs mappings
(the push after create/update, the pull import/repair path, the pull deletion
reconciliation, and a whole bulk pull) preserves this uniqueness; in
particular the pull path that creates a mapping for a task found via a
fallback lookup cannot produce a second mapping for a (task, "google") pair
that already has one. -/
theorem mapping_uniqueness_invariant
    (remote : Remote) (db : Db) (userId taskId : Nat) (pushCal : Option String)
    (event : GoogleEvent) (pullEventCal delCal : String)
    (events : List GoogleEvent) (pullCal : Option String) (now : Int)
    (h : MappingUnique db) :
    MappingUnique (syncTaskToGoogle remote db userId taskId pushCal now).1 ∧
    MappingUnique (syncEventToTask db event userId pullEventCal now).1 ∧
    MappingUnique (handleDeletedGoogleEvents db delCal events userId).1 ∧
    MappingUnique (syncGoogleEventsToTasks remote db userId pullCal now).1 :=
  ⟨mappingUnique_syncTaskToGoogle remote db userId taskId pushCal now h,
   mappingUnique_syncEventToTask db event userId pullEventCal now h,
   mappingUnique_handleDeletedGoogleEvents db delCal events userId h,
   mappingUnique_syncGoogleEventsToTasks remote db userId pullCal now h⟩

/-- C1 witness: uniqueness preserved across a concrete push, pull-import,
reconciliation and bulk pull. -/
theorem mapping_uniqueness_invariant_witness :
    MappingUnique (syncTaskToGoogle okRemote dbAll 1 1 none 7).1 ∧
    MappingUnique (syncEventToTask dbAll dentistEvent 1 "cal1" 7).1 ∧
    MappingUnique (handleDeletedGoogleEvents dbAll "cal1" [] 1).1 ∧
    MappingUnique (syncGoogleEventsToTasks okRemote dbAll 1 none 7).1 :=
  mapping_uniqueness_invariant okRemote dbAll 1 1 none dentistEvent "cal1" "cal1" [] none 7
    (by decide)

-- ============================================
-- Claim C3: deletion reconciliation
-- ============================================

/-- C3: for every TaskMapping of the scanned calendar whose external event id
is absent from the freshly fetched event set, the pull removes that mapping
(no (taskId, "google") row remains), sets the mapped task's status to "done"
and completed to true, and deletes no task record. -/
theorem handleDeleted_reconciliation
    (db : Db) (calendarId : String) (events : List GoogleEvent) (userId : Nat)
    (m : TaskMapping) (t : Task)
    (huniq : MappingUnique db)
    (hm : m ∈ db.mappings) (hmu : m.userId = userId) (hmp : m.provider = "google")
    (hmc : m.externalCalendarId = calendarId)
    (habsent : (events.filterMap (fun e => e.id)).contains m.externalEventId = false)
    (ht : findTask db m.taskId = some t) :
    (∀ x ∈ (handleDeletedGoogleEvents db calendarId events userId).1.mappings,
        ¬(x.taskId = m.taskId ∧ x.provider = "google")) ∧
    TaskDone (handleDeletedGoogleEvents db calendarId events userId).1 m.taskId ∧
    (handleDeletedGoogleEvents db calendarId events userId).1.tasks.map (fun x => x.id) =
      db.tasks.map (fun x => x.id) := by
  have hmfilter : m ∈ db.mappings.filter (fun x =>
      x.userId == userId && x.provider == "google" && x.externalCalendarId == calendarId) :=
    List.mem_filter.mpr ⟨hm, by simp [hmu, hmp, hmc]⟩
  obtain ⟨l1, l2, hsplit⟩ := List.append_of_mem hmfilter
  have ht2 : db.tasks.find? (fun x => x.id == m.taskId) = some t := ht
  have hpresent : m.taskId ∈ db.tasks.map (fun x => x.id) := by
    refine List.mem_map.mpr ⟨t, List.mem_of_find?_eq_some ht2, ?_⟩
    have hb := List.find?_some ht2
    simpa using hb
  have hP := handleDeletedFold_processes (events.filterMap (fun e => e.id)) db l1 l2 m
    huniq habsent hpresent
  unfold handleDeletedGoogleEvents
  rw [hsplit]
  dsimp only
  refine ⟨?_, ?_, ?_⟩
  · split
    · exact hP.1
    · exact hP.1
  · split
    · exact hP.2.1
    · exact hP.2.1
  · split
    · exact hP.2.2
    · exact hP.2.2

/-- C3 witness: the reconciliation theorem applied to a concrete store whose
single mapping points at a remotely deleted event. -/
theorem handleDeleted_reconciliation_witness :
    (∀ x ∈ (handleDeletedGoogleEvents dbDel "cal1" [] 1).1.mappings,
        ¬(x.taskId = mDel.taskId ∧ x.provider = "google")) ∧
    TaskDone (handleDeletedGoogleEvents dbDel "cal1" [] 1).1 mDel.taskId ∧
    (handleDeletedGoogleEvents dbDel "cal1" [] 1).1.tasks.map (fun x => x.id) =
      dbDel.tasks.map (fun x => x.id) :=
  handleDeleted_reconciliation dbDel "cal1" [] 1 mDel standup
    (by decide) (by decide) (by decide) (by decide) (by decide) (by decide) (by decide)

/-- C2: for every task with no existing `google` TaskMapping, calling
`syncTaskToGoogle(accountId, taskId)` with no explicit calendar id returns the
task unchanged, issues no remote call, and leaves the store untouched (in
particular it creates no mapping); a mapping is only created when a caller
supplies a target calendar for the first push. -/
theorem syncTaskToGoogle_explicit_sync_policy
    (remote : Remote) (db : Db) (userId taskId : Nat) (now : Int) (task : Task)
    (hauth : hasValidGoogleAuth db userId = true)
    (htask : findTask db taskId = some task)
    (hmap : findMappingByTask db task.id "google" = none) :
    syncTaskToGoogle remote db userId taskId none now = (db, [], .ok task) := by
  unfold syncTaskToGoogle
  simp [hauth, htask, hmap]

/-- C2 witness: the policy theorem applied to a concrete store. -/
theorem syncTaskToGoogle_explicit_sync_policy_witness :
    syncTaskToGoogle okRemote db0 1 10 none 5 = (db0, [], .ok standup) :=
  syncTaskToGoogle_explicit_sync_policy okRemote db0 1 10 5 standup
    (by decide) (by decide) (by decide)

-- ============================================
-- Claim C5: push payload start/end
-- ============================================

/-- C5 counterexample: the current payload builder ignores the task's explicit
end instant.  `taskWithEnd` carries `scheduledEndDate` 2026-01-05T11:00Z, yet
the pushed payload ends at start + 1h = 2026-01-05T10:00Z. -/
theorem taskToEventData_ignores_explicit_end :
    taskWithEnd.scheduledEndDate = some 1767610800000 ∧
    (taskToEventData taskWithEnd none).endDateTime ≠ 1767610800000 ∧
    (taskToEventData taskWithEnd none).endDateTime = 1767607200000 := by decide

/-- C5 amended: the pushed payload has start = the task's date combined with
its time-of-day when present, and end = start plus the default 1-hour
duration, always (the task's explicit end instant is never consulted);
the Standup scenario yields one CreateEvent with start 2026-01-05T09:00Z,
end 2026-01-05T10:00Z and a persisted TaskMapping (taskId, "google",
eventId, "cal1"). -/
theorem taskToEventData_end_is_start_plus_hour
    (task : Task) (project : Option Project) (d : Int) (hd : task.date = some d) :
    ((taskToEventData task project).startDateTime =
        (match task.time with
         | some (h, m) => dayStart d + h * (60 * 60 * 1000) + m * (60 * 1000)
         | none => d)) ∧
    ((taskToEventData task project).endDateTime =
        (taskToEventData task project).startDateTime + defaultEventDuration) ∧
    (syncTaskToGoogle okRemote db0 1 10 (some "cal1") 5).2.1 =
      [RemoteCall.createEvent 1 "cal1" (taskToEventData standup none)] ∧
    findMappingByTask (syncTaskToGoogle okRemote db0 1 10 (some "cal1") 5).1 10 "google" =
      some { taskId := 10, userId := 1, provider := "google", externalEventId := "ev1",
             externalCalendarId := "cal1", lastSyncedAt := 5,
             syncHash := computeSyncHash standup } ∧
    (taskToEventData standup none).startDateTime = 1767603600000 ∧
    (taskToEventData standup none).endDateTime = 1767607200000 := by
  refine ⟨?_, ?_, by decide, by decide, by decide, by decide⟩
  · unfold taskToEventData
    cases htime : task.time <;> simp [hd, htime]
  · unfold taskToEventData
    cases htime : task.time <;> simp [hd, htime]

/-- C5 witness: the amended payload rule applied to a concrete timed task. -/
theorem taskToEventData_end_is_start_plus_hour_witness :
    ((taskToEventData standup none).startDateTime =
        (match standup.time with
         | some (h, m) => dayStart 1767603600000 + h * (60 * 60 * 1000) + m * (60 * 1000)
         | none => 1767603600000)) ∧
    ((taskToEventData standup none).endDateTime =
        (taskToEventData standup none).startDateTime + defaultEventDuration) ∧
    (syncTaskToGoogle okRemote db0 1 10 (some "cal1") 5).2.1 =
      [RemoteCall.createEvent 1 "cal1" (taskToEventData standup none)] ∧
    findMappingByTask (syncTaskToGoogle okRemote db0 1 10 (some "cal1") 5).1 10 "google" =
      some { taskId := 10, userId := 1, provider := "google", externalEventId := "ev1",
             externalCalendarId := "cal1", lastSyncedAt := 5,
             syncHash := computeSyncHash standup } ∧
    (taskToEventData standup none).startDateTime = 1767603600000 ∧
    (taskToEventData standup none).endDateTime = 1767607200000 :=
  taskToEventData_end_is_start_plus_hour standup none 1767603600000 (by decide)

-- ============================================
-- Claim C6: heuristic duplicate avoidance on pull
-- ============================================

/-- C6: during a pull, an event with no existing mapping, no embedded
back-reference and no deprecated event-id link, whose account has an unmapped
local task with the same exact title and date (the heuristic tried only after
those three lookups fail), updates that existing task — no new task row is
created — and creates a TaskMapping for it. -/
theorem syncEventToTask_heuristic_dedup
    (db : Db) (event : GoogleEvent) (userId : Nat) (calendarId : String) (now : Int)
    (eid : String) (t : Task)
    (hid : event.id = some eid)
    (hmap : findMappingByEvent db eid "google" = none)
    (hbackref : event.axisTaskId = none)
    (hlegacy : db.tasks.find? (fun x => x.googleEventId == some eid) = none)
    (hheur : db.tasks.find? (fun x =>
        x.userId == userId && some x.title == event.summary &&
        x.date == some (parseEventDateTime event now).1) = some t)
    (hunmapped : findMappingByTask db t.id "google" = none) :
    ∃ t2, (syncEventToTask db event userId calendarId now).2 = .ok t2 ∧ t2.id = t.id ∧
      (syncEventToTask db event userId calendarId now).1.tasks.map (fun x => x.id) =
        db.tasks.map (fun x => x.id) ∧
      (∃ mp ∈ (syncEventToTask db event userId calendarId now).1.mappings,
        mp.taskId = t.id ∧ mp.provider = "google" ∧ mp.externalEventId = eid ∧
        mp.externalCalendarId = calendarId) := by
  have hany : (db.mappings.any (fun x => x.taskId == t.id && x.provider == "google")) = false := by
    rw [List.any_eq_false]
    intro x hx
    have hq := List.find?_eq_none.mp hunmapped x hx
    simpa using hq
  unfold syncEventToTask insertMapping
  rw [hid]
  simp only [Option.some_bind, Option.none_bind, hmap, hbackref, hlegacy, hheur]
  rw [show ((saveTask db { t with
        title := match strOpt event.summary with | some s => s | none => t.title
        description := match event.description with | some s => some s | none => t.description
        date := some (parseEventDateTime event now).1
        time := (parseEventDateTime event now).2
        lastSyncedAt := some now
        userId := if t.userId == 0 then userId else t.userId }).mappings.any
      (fun x => x.taskId == t.id && x.provider == "google")) = false from hany]
  refine ⟨_, rfl, rfl, saveTask_task_ids _ _, _, List.mem_cons_self _ _, rfl, rfl, rfl, rfl⟩

/-- C6 witness: the "Dentist" pull scenario — the unmapped local task with the
same title and date is updated rather than duplicated. -/
theorem syncEventToTask_heuristic_dedup_witness :
    ∃ t2, (syncEventToTask dbH dentistEvent 1 "cal1" 7).2 = .ok t2 ∧ t2.id = dentistTask.id ∧
      (syncEventToTask dbH dentistEvent 1 "cal1" 7).1.tasks.map (fun x => x.id) =
        dbH.tasks.map (fun x => x.id) ∧
      (∃ mp ∈ (syncEventToTask dbH dentistEvent 1 "cal1" 7).1.mappings,
        mp.taskId = dentistTask.id ∧ mp.provider = "google" ∧ mp.externalEventId = "evD" ∧
        mp.externalCalendarId = "cal1") :=
  syncEventToTask_heuristic_dedup dbH dentistEvent 1 "cal1" 7 "evD" dentistTask
    (by decide) (by decide) (by decide) (by decide) (by decide) (by decide)

-- ============================================
-- Claim C7: cache tombstones after a pull
-- ============================================

/-- The cache after reconciliation: rows of the deleted mappings' events are
removed, every other absent row of the scanned calendar is marked cancelled. -/
theorem handleDeleted_cache_characterization (db : Db) (calendarId : String)
    (events : List GoogleEvent) (userId : Nat) :
    (handleDeletedGoogleEvents db calendarId events userId).1.cache =
      (db.cache.filter (fun e => !(e.userId == userId &&
          (staleMappingEventIds db calendarId (events.filterMap (fun ev => ev.id)) userId).contains
            e.externalId))).map
        (fun e => if e.userId == userId && e.calendarId == calendarId &&
            !(events.filterMap (fun ev => ev.id)).contains e.externalId && e.status != "cancelled"
          then { e with status := "cancelled" } else e) := by
  unfold handleDeletedGoogleEvents staleMappingEventIds
  dsimp only
  rw [handleDeletedFold_deletedIds]
  rw [handleDeletedFold_cache]
  dsimp only
  split
  · next hempty =>
    have hnil : (List.filter (fun m => !(events.filterMap (fun e => e.id)).contains m.externalEventId)
        (db.mappings.filter (fun m =>
          m.userId == userId && m.provider == "google" && m.externalCalendarId == calendarId))).map
        (fun m => m.externalEventId) = [] := by
      simpa using hempty
    rw [hnil, handleDeletedFold_cache]
    simp
  · rfl

/-- C7 counterexample: the cache row "evX" of calendar "cal1" is absent from
the freshly fetched (empty) event set and had a TaskMapping; reconciliation
deletes it from the cache outright instead of marking it cancelled. -/
theorem handleDeleted_cache_row_removed_not_cancelled :
    (dbDel.cache.any (fun e =>
      e.userId == 1 && e.calendarId == "cal1" && e.externalId == "evX")) = true ∧
    (([] : List GoogleEvent).filterMap (fun e => e.id)).contains "evX" = false ∧
    ((handleDeletedGoogleEvents dbDel "cal1" [] 1).1.cache.all
      (fun e => !(e.userId == 1 && e.externalId == "evX"))) = true := by decide

/-- C7 amended: after a pull reconciles a scanned calendar, a cache row of
that calendar whose external id is absent from the freshly fetched set is
kept as a cancelled tombstone only when it did not belong to a deleted
mapping; rows of reconciled (deleted) mappings are removed from the cache. -/
theorem handleDeleted_cache_tombstones
    (db : Db) (calendarId : String) (events : List GoogleEvent) (userId : Nat)
    (e : CalendarEvent)
    (he : e ∈ db.cache) (hu : e.userId = userId) (hc : e.calendarId = calendarId)
    (habsent : (events.filterMap (fun ev => ev.id)).contains e.externalId = false) :
    (if (staleMappingEventIds db calendarId (events.filterMap (fun ev => ev.id)) userId).contains
        e.externalId then
      ∀ x ∈ (handleDeletedGoogleEvents db calendarId events userId).1.cache,
        ¬(x.userId = userId ∧ x.externalId = e.externalId)
    else
      ∃ x ∈ (handleDeletedGoogleEvents db calendarId events userId).1.cache,
        x.externalId = e.externalId ∧ x.calendarId = e.calendarId ∧ x.status = "cancelled") := by
  rw [handleDeleted_cache_characterization]
  by_cases hin : (staleMappingEventIds db calendarId (events.filterMap (fun ev => ev.id))
      userId).contains e.externalId = true
  · rw [if_pos hin]
    intro x hx hcontra
    obtain ⟨y, hy, hxy⟩ := List.mem_map.mp hx
    have hyu : y.userId = x.userId := by rw [← hxy]; split <;> rfl
    have hye : y.externalId = x.externalId := by rw [← hxy]; split <;> rfl
    have hyfil := List.mem_filter.mp hy
    have hfalse : (y.userId == userId &&
        (staleMappingEventIds db calendarId (events.filterMap (fun ev => ev.id))
          userId).contains y.externalId) = false := by
      have h2 := hyfil.2
      rwa [Bool.not_eq_true'] at h2
    rw [show y.userId = userId from hyu.trans hcontra.1,
        show y.externalId = e.externalId from hye.trans hcontra.2] at hfalse
    simp at hfalse
    exact hfalse (by simpa using hin)
  · rw [if_neg hin]
    have hin2 : (staleMappingEventIds db calendarId (events.filterMap (fun ev => ev.id))
        userId).contains e.externalId = false := eq_false_of_ne_true hin
    refine ⟨_, List.mem_map.mpr ⟨e, List.mem_filter.mpr
      ⟨he, by simp; exact Or.inr (by simpa using hin2)⟩, rfl⟩, ?_, ?_, ?_⟩
    · split <;> rfl
    · split <;> rfl
    · by_cases hs : e.status = "cancelled"
      · dsimp only
        rw [if_neg (by simp [hs])]
        exact hs
      · dsimp only
        rw [if_pos (by simp [hu, hc, hs]; simpa using habsent)]

/-- C7 amended witness: the "evY" row (absent remotely, no mapping) survives
reconciliation as a cancelled tombstone. -/
theorem handleDeleted_cache_tombstones_witness :
    (if (staleMappingEventIds dbDel "cal1" (([] : List GoogleEvent).filterMap (fun ev => ev.id)) 1).contains
        "evY" then
      ∀ x ∈ (handleDeletedGoogleEvents dbDel "cal1" [] 1).1.cache,
        ¬(x.userId = 1 ∧ x.externalId = "evY")
    else
      ∃ x ∈ (handleDeletedGoogleEvents dbDel "cal1" [] 1).1.cache,
        x.externalId = "evY" ∧ x.calendarId = "cal1" ∧ x.status = "cancelled") :=
  handleDeleted_cache_tombstones dbDel "cal1" [] 1
    { userId := 1, externalId := "evY", calendarId := "cal1", title := "Other",
      start := 0, endTime := 1, lastSyncedAt := 0 }
    (by decide) (by decide) (by decide) (by decide)

-- ============================================
-- Claim C8: unknown webhook channel is dropped
-- ============================================

/-- C8: a webhook notification whose channel id matches no stored
ConnectedCalendar channel is logged and dropped: no pull is triggered, the
store is unchanged, and no error is raised; a notification with resource
state "sync" is likewise a no-op. -/
theorem webhook_unknown_channel_is_noop
    (remote : Remote) (db : Db) (channelId resourceId : String) (now : Int)
    (h : ∀ c ∈ db.calendars, c.webhookChannelId ≠ some channelId) :
    handleWebhookNotification remote db channelId resourceId now = (db, [], .ok ()) ∧
    handleGoogleCalendarWebhook remote db channelId resourceId "sync" now = (db, [], .ok ()) := by
  constructor
  · unfold handleWebhookNotification getUserByWebhookChannel
    have hf : db.calendars.find? (fun c => c.webhookChannelId == some channelId) = none := by
      rw [List.find?_eq_none]
      intro c hc
      simpa using h c hc
    simp [hf]
  · unfold handleGoogleCalendarWebhook
    simp

/-- C8 witness: dropping a notification for channel "unknown-ch" against a
store whose only calendar listens on "known-ch". -/
theorem webhook_unknown_channel_is_noop_witness :
    handleWebhookNotification okRemote dbW "unknown-ch" "rs" 3 = (dbW, [], .ok ()) ∧
    handleGoogleCalendarWebhook okRemote dbW "unknown-ch" "rs" "sync" 3 = (dbW, [], .ok ()) :=
  webhook_unknown_channel_is_noop okRemote dbW "unknown-ch" "rs" 3 (by decide)

-- ============================================
-- Claim C9: partial-failure isolation
-- ============================================

theorem syncAllStep_ok (remote : Remote) (userId : Nat) (now : Int)
    (acc : Db × List RemoteCall × SyncResult) (task : Task)
    (db2 : Db) (c : List RemoteCall) (t2 : Task)
    (h : syncTaskToGoogle remote acc.1 userId task.id none now = (db2, c, .ok t2)) :
    syncAllStep remote userId now acc task =
      (db2, acc.2.1 ++ c, { acc.2.2 with synced := acc.2.2.synced + 1 }) := by
  unfold syncAllStep
  dsimp only
  rw [h]

theorem syncAllStep_err (remote : Remote) (userId : Nat) (now : Int)
    (acc : Db × List RemoteCall × SyncResult) (task : Task)
    (db2 : Db) (c : List RemoteCall) (e2 : Err)
    (h : syncTaskToGoogle remote acc.1 userId task.id none now = (db2, c, .error e2)) :
    syncAllStep remote userId now acc task =
      (db2, acc.2.1 ++ c,
        { acc.2.2 with
          failed := acc.2.2.failed + 1
          errors := acc.2.2.errors ++ ["Task \"" ++ task.title ++ "\": " ++ e2.message] }) := by
  unfold syncAllStep
  dsimp only
  rw [h]

/-- Accounting of the bulk-push loop: every task is attempted exactly once
and failures only accumulate. -/
theorem syncAllFold_accounting (remote : Remote) (userId : Nat) (now : Int)
    (ts : List Task) (db : Db) (calls : List RemoteCall) (res : SyncResult) :
    ((ts.foldl (syncAllStep remote userId now) (db, calls, res)).2.2).synced +
      ((ts.foldl (syncAllStep remote userId now) (db, calls, res)).2.2).failed =
      res.synced + res.failed + ts.length ∧
    ((ts.foldl (syncAllStep remote userId now) (db, calls, res)).2.2).errors.length + res.failed =
      res.errors.length + ((ts.foldl (syncAllStep remote userId now) (db, calls, res)).2.2).failed := by
  induction ts generalizing db calls res with
  | nil => simp
  | cons t ts ih =>
    rw [List.foldl_cons]
    rcases heq : syncTaskToGoogle remote db userId t.id none now with ⟨db2, c, r2⟩
    cases r2 with
    | ok t2 =>
      rw [syncAllStep_ok remote userId now (db, calls, res) t db2 c t2 heq]
      have ihx := ih db2 (calls ++ c) { res with synced := res.synced + 1 }
      dsimp only at ihx ⊢
      simp only [List.length_cons] at ihx ⊢
      exact ⟨by omega, by omega⟩
    | error e2 =>
      rw [syncAllStep_err remote userId now (db, calls, res) t db2 c e2 heq]
      have ihx := ih db2 (calls ++ c)
        { res with failed := res.failed + 1,
                   errors := res.errors ++ ["Task \"" ++ t.title ++ "\": " ++ e2.message] }
      dsimp only at ihx ⊢
      simp only [List.length_append, List.length_cons, List.length_nil] at ihx ⊢
      exact ⟨by omega, by omega⟩

theorem syncEventsStep_ok (userId : Nat) (cal : String) (now : Int)
    (acc : Db × Nat × Nat × List String) (event : GoogleEvent) (db2 : Db) (t2 : Task)
    (h : syncEventToTask acc.1 event userId cal now = (db2, .ok t2)) :
    syncEventsStep userId cal now acc event = (db2, acc.2.1 + 1, acc.2.2.1, acc.2.2.2) := by
  unfold syncEventsStep
  dsimp only
  rw [h]

theorem syncEventsStep_err (userId : Nat) (cal : String) (now : Int)
    (acc : Db × Nat × Nat × List String) (event : GoogleEvent) (db2 : Db) (e2 : Err)
    (h : syncEventToTask acc.1 event userId cal now = (db2, .error e2)) :
    syncEventsStep userId cal now acc event = (db2, acc.2.1, acc.2.2.1 + 1,
      acc.2.2.2 ++ ["Event \"" ++ (event.summary.getD "undefined") ++ "\": " ++ e2.message]) := by
  unfold syncEventsStep
  dsimp only
  rw [h]

/-- Accounting of the per-event pull loop: every event is attempted exactly
once and failures only accumulate. -/
theorem syncEventsFold_accounting (userId : Nat) (cal : String) (now : Int)
    (events : List GoogleEvent) (db : Db) (s f : Nat) (errs : List String) :
    ((events.foldl (syncEventsStep userId cal now) (db, s, f, errs)).2.1 +
      (events.foldl (syncEventsStep userId cal now) (db, s, f, errs)).2.2.1 =
      s + f + events.length) ∧
    ((events.foldl (syncEventsStep userId cal now) (db, s, f, errs)).2.2.2.length + f =
      errs.length + (events.foldl (syncEventsStep userId cal now) (db, s, f, errs)).2.2.1) := by
  induction events generalizing db s f errs with
  | nil => simp
  | cons ev evs ih =>
    rw [List.foldl_cons]
    rcases heq : syncEventToTask db ev userId cal now with ⟨db2, r2⟩
    cases r2 with
    | ok t2 =>
      rw [syncEventsStep_ok userId cal now (db, s, f, errs) ev db2 t2 heq]
      have ihx := ih db2 (s + 1) f errs
      dsimp only at ihx ⊢
      simp only [List.length_cons] at ihx ⊢
      exact ⟨by omega, by omega⟩
    | error e2 =>
      rw [syncEventsStep_err userId cal now (db, s, f, errs) ev db2 e2 heq]
      have ihx := ih db2 s (f + 1)
        (errs ++ ["Event \"" ++ (ev.summary.getD "undefined") ++ "\": " ++ e2.message])
      dsimp only at ihx ⊢
      simp only [List.length_append, List.length_cons, List.length_nil] at ihx ⊢
      exact ⟨by omega, by omega⟩

/-- C9: bulk sync isolates per-item failures.  `syncAllTasksToGoogle` attempts
every eligible task (synced + failed equals their number), accumulates one
error string per failure, and reports success only when nothing failed — so
with exactly one failure among N tasks it returns synced = N-1, failed = 1,
success = false and one entry in errors.  The pull's per-event loop accounts
the same way, and a per-calendar remote failure adds one failure to the
summary without aborting the loop. -/
theorem syncAll_partial_failure_isolation
    (remote : Remote) (db : Db) (userId : Nat) (now : Int)
    (db0 : Db) (pullEvents : List GoogleEvent) (eventCal : String)
    (cal : String × String) (dbc : Db) (cs : List RemoteCall) (res0 : SyncResult) (msg : String)
    (hauth : hasValidGoogleAuth db userId = true)
    (hcalfail : remote.listEvents userId cal.1 (now - 90 * msPerDay) (now + 180 * msPerDay) =
      .error msg) :
    (∃ db2 calls res, syncAllTasksToGoogle remote db userId now = (db2, calls, .ok res) ∧
      res.synced + res.failed = (syncAllEligibleTasks db userId).length ∧
      res.errors.length = res.failed ∧
      res.success = (res.failed == 0) ∧
      (res.failed = 1 → res.synced = (syncAllEligibleTasks db userId).length - 1 ∧
        res.success = false ∧ res.errors.length = 1)) ∧
    ((syncCalendarEvents db0 userId eventCal pullEvents now).2.1 +
        (syncCalendarEvents db0 userId eventCal pullEvents now).2.2.1 = pullEvents.length ∧
      (syncCalendarEvents db0 userId eventCal pullEvents now).2.2.2.length =
        (syncCalendarEvents db0 userId eventCal pullEvents now).2.2.1) ∧
    (syncOneCalendar remote userId now (dbc, cs, res0) cal).2.2 =
      { res0 with failed := res0.failed + 1,
                  errors := res0.errors ++ ["Calendar " ++ cal.2 ++ ": " ++ msg] } := by
  refine ⟨?_, ?_, ?_⟩
  · obtain ⟨hacc1, hacc2⟩ := syncAllFold_accounting remote userId now
      (syncAllEligibleTasks db userId) db []
      { success := true, synced := 0, failed := 0, errors := [] }
    unfold syncAllTasksToGoogle
    rw [hauth]
    dsimp only
    dsimp only at hacc1 hacc2
    simp only [Nat.zero_add, Nat.add_zero, List.length_nil] at hacc1 hacc2
    generalize hF : List.foldl (syncAllStep remote userId now)
      (db, ([] : List RemoteCall), { success := true, synced := 0, failed := 0, errors := [] })
      (syncAllEligibleTasks db userId) = F at hacc1 hacc2 ⊢
    refine ⟨_, _, _, rfl, ?_, ?_, rfl, ?_⟩
    · exact hacc1
    · exact hacc2
    · intro h1
      dsimp only at h1 ⊢
      rw [h1] at hacc1
      refine ⟨Nat.eq_sub_of_add_eq hacc1, ?_, by rw [hacc2]; exact h1⟩
      rw [h1]
      rfl
  · obtain ⟨hacc1, hacc2⟩ := syncEventsFold_accounting userId eventCal now pullEvents db0 0 0 []
    unfold syncCalendarEvents
    simp only [Nat.zero_add, Nat.add_zero, List.length_nil] at hacc1 hacc2
    generalize List.foldl (syncEventsStep userId eventCal now)
      (db0, 0, 0, ([] : List String)) pullEvents = F at hacc1 hacc2 ⊢
    exact ⟨hacc1, hacc2⟩
  · unfold syncOneCalendar
    dsimp only
    rw [hcalfail]

/-- C9 witness: three mapped tasks of which exactly one fails to push yield
synced = 2, failed = 1, success = false and one error entry; the per-event
loop and a failing calendar listing account the same way. -/
theorem syncAll_partial_failure_isolation_witness :
    (∃ db2 calls res, syncAllTasksToGoogle failRemote dbAll 1 7 = (db2, calls, .ok res) ∧
      res.synced + res.failed = (syncAllEligibleTasks dbAll 1).length ∧
      res.errors.length = res.failed ∧
      res.success = (res.failed == 0) ∧
      (res.failed = 1 → res.synced = (syncAllEligibleTasks dbAll 1).length - 1 ∧
        res.success = false ∧ res.errors.length = 1)) ∧
    ((syncCalendarEvents dbAll 1 "cal1" [] 7).2.1 +
        (syncCalendarEvents dbAll 1 "cal1" [] 7).2.2.1 = ([] : List GoogleEvent).length ∧
      (syncCalendarEvents dbAll 1 "cal1" [] 7).2.2.2.length =
        (syncCalendarEvents dbAll 1 "cal1" [] 7).2.2.1) ∧
    (syncOneCalendar failRemote 1 7
        (dbAll, [], { success := true, synced := 0, failed := 0, errors := [] })
        ("badcal", "Bad")).2.2 =
      { success := true, synced := 0, failed := 0 + 1,
        errors := [] ++ ["Calendar " ++ "Bad" ++ ": " ++ "list failed"] } :=
  syncAll_partial_failure_isolation failRemote dbAll 1 7 dbAll [] "cal1"
    ("badcal", "Bad") dbAll [] { success := true, synced := 0, failed := 0, errors := [] }
    "list failed" (by decide) (by decide)

-- ============================================
-- Claim C10: missing ownership check on push
-- ============================================

/-- C10: `syncTaskToGoogle` looks the task up by id alone and never compares
the task's owner with the acting account: acting user 1 pushes user 2's task
to a calendar of user 1's choosing using user 1's credentials, the call
succeeds, and the created mapping is recorded under the owner's user id 2. -/
theorem syncTaskToGoogle_no_ownership_check :
    victimTask.userId = 2 ∧
    (syncTaskToGoogle okRemote dbX 1 30 (some "callerCal") 5).2.2 = .ok victimTask ∧
    (syncTaskToGoogle okRemote dbX 1 30 (some "callerCal") 5).2.1 =
      [RemoteCall.createEvent 1 "callerCal" (taskToEventData victimTask none)] ∧
    (syncTaskToGoogle okRemote dbX 1 30 (some "callerCal") 5).1.mappings =
      [{ taskId := 30, userId := 2, provider := "google", externalEventId := "ev1",
         externalCalendarId := "callerCal", lastSyncedAt := 5,
         syncHash := computeSyncHash victimTask }] := by decide

end TaskSync


namespace TaskSync

theorem getOrCreateInboxProject_users (db : Db) (u : Nat) :
    ((getOrCreateInboxProject db u).1).users = db.users := by
  unfold getOrCreateInboxProject
  split <;> rfl

theorem pushCreateEvent_users (remote : Remote) (db : Db) (userId : Nat)
    (task : Task) (cal : String) (data : EventData) (calls : List RemoteCall) (now : Int) :
    ((pushCreateEvent remote db userId task cal data calls now).1).users = db.users := by
  unfold pushCreateEvent
  dsimp only
  split
  · rfl
  · split
    · split <;> · unfold insertMapping; split <;> rfl
    · rfl

theorem syncTaskToGoogle_users (remote : Remote) (db : Db)
    (userId taskId : Nat) (calendarId : Option String) (now : Int) :
    ((syncTaskToGoogle remote db userId taskId calendarId now).1).users = db.users := by
  unfold syncTaskToGoogle
  dsimp only
  split
  · rfl
  · split
    · rfl
    · split
      · rfl
      · split
        · rfl
        · split
          · rfl
          · split
            · split
              · rfl
              · split
                · exact pushCreateEvent_users _ _ _ _ _ _ _ _
                · rfl
            · exact pushCreateEvent_users _ _ _ _ _ _ _ _

theorem pushCreateEvent_no_createCalendar (remote : Remote) (db : Db) (userId : Nat)
    (task : Task) (cal : String) (data : EventData) (calls : List RemoteCall) (now : Int) :
    ((pushCreateEvent remote db userId task cal data calls now).2.1).countP
      (fun c => c.isCreateCalendar) = calls.countP (fun c => c.isCreateCalendar) := by
  unfold pushCreateEvent
  dsimp only
  split
  · simp [RemoteCall.isCreateCalendar]
  · split
    · split <;> · unfold insertMapping; split <;> simp [RemoteCall.isCreateCalendar]
    · simp [RemoteCall.isCreateCalendar]

theorem syncTaskToGoogle_no_createCalendar (remote : Remote) (db : Db)
    (userId taskId : Nat) (calendarId : Option String) (now : Int) :
    ((syncTaskToGoogle remote db userId taskId calendarId now).2.1).countP
      (fun c => c.isCreateCalendar) = 0 := by
  unfold syncTaskToGoogle
  dsimp only
  split
  · rfl
  · split
    · rfl
    · split
      · rfl
      · split
        · rfl
        · split
          · rfl
          · split
            · split
              · simp [RemoteCall.isCreateCalendar]
              · split
                · rw [pushCreateEvent_no_createCalendar]
                  simp [RemoteCall.isCreateCalendar]
                · simp [RemoteCall.isCreateCalendar]
            · rw [pushCreateEvent_no_createCalendar]
              rfl

end TaskSync

namespace TaskSync

theorem syncAllStep_users (remote : Remote) (userId : Nat) (now : Int)
    (acc : Db × List RemoteCall × SyncResult) (task : Task) :
    ((syncAllStep remote userId now acc task).1).users = acc.1.users := by
  rcases heq : syncTaskToGoogle remote acc.1 userId task.id none now with ⟨db2, c, r2⟩
  have hu := syncTaskToGoogle_users remote acc.1 userId task.id none now
  rw [heq] at hu
  cases r2 with
  | ok t2 => rw [syncAllStep_ok remote userId now acc task db2 c t2 heq]; exact hu
  | error e2 => rw [syncAllStep_err remote userId now acc task db2 c e2 heq]; exact hu

theorem syncAllStep_no_createCalendar (remote : Remote) (userId : Nat) (now : Int)
    (acc : Db × List RemoteCall × SyncResult) (task : Task) :
    ((syncAllStep remote userId now acc task).2.1).countP (fun c => c.isCreateCalendar) =
      (acc.2.1).countP (fun c => c.isCreateCalendar) := by
  rcases heq : syncTaskToGoogle remote acc.1 userId task.id none now with ⟨db2, c, r2⟩
  have hn := syncTaskToGoogle_no_createCalendar remote acc.1 userId task.id none now
  rw [heq] at hn
  cases r2 with
  | ok t2 =>
    rw [syncAllStep_ok remote userId now acc task db2 c t2 heq]
    dsimp only at hn ⊢
    rw [List.countP_append, hn]
    omega
  | error e2 =>
    rw [syncAllStep_err remote userId now acc task db2 c e2 heq]
    dsimp only at hn ⊢
    rw [List.countP_append, hn]
    omega

theorem syncAllFold_users (remote : Remote) (userId : Nat) (now : Int)
    (ts : List Task) (acc : Db × List RemoteCall × SyncResult) :
    ((ts.foldl (syncAllStep remote userId now) acc).1).users = acc.1.users := by
  induction ts generalizing acc with
  | nil => rfl
  | cons t ts ih => rw [List.foldl_cons, ih, syncAllStep_users]

theorem syncAllFold_no_createCalendar (remote : Remote) (userId : Nat) (now : Int)
    (ts : List Task) (acc : Db × List RemoteCall × SyncResult) :
    ((ts.foldl (syncAllStep remote userId now) acc).2.1).countP (fun c => c.isCreateCalendar) =
      (acc.2.1).countP (fun c => c.isCreateCalendar) := by
  induction ts generalizing acc with
  | nil => rfl
  | cons t ts ih => rw [List.foldl_cons, ih, syncAllStep_no_createCalendar]

theorem syncAllTasksToGoogle_users (remote : Remote) (db : Db) (userId : Nat) (now : Int) :
    ((syncAllTasksToGoogle remote db userId now).1).users = db.users := by
  unfold syncAllTasksToGoogle
  dsimp only
  split
  · rfl
  · exact syncAllFold_users _ _ _ _ _

theorem syncAllTasksToGoogle_no_createCalendar (remote : Remote) (db : Db)
    (userId : Nat) (now : Int) :
    ((syncAllTasksToGoogle remote db userId now).2.1).countP (fun c => c.isCreateCalendar) = 0 := by
  unfold syncAllTasksToGoogle
  dsimp only
  split
  · rfl
  · exact syncAllFold_no_createCalendar _ _ _ _ _

theorem enableWebhookStep_users (remote : Remote) (userId : Nat) (url : String)
    (acc : Db × List RemoteCall) (cal : ConnectedCalendar) :
    ((enableWebhookStep remote userId url acc cal).1).users = acc.1.users := by
  unfold enableWebhookStep
  dsimp only
  split
  · rfl
  · split
    · rfl
    · split
      · rfl
      · unfold saveCalendarRow
        rfl

theorem enableWebhookStep_no_createCalendar (remote : Remote) (userId : Nat) (url : String)
    (acc : Db × List RemoteCall) (cal : ConnectedCalendar) :
    ((enableWebhookStep remote userId url acc cal).2).countP (fun c => c.isCreateCalendar) =
      (acc.2).countP (fun c => c.isCreateCalendar) := by
  unfold enableWebhookStep
  dsimp only
  split
  · rfl
  · split
    · split
      · next heq1 heq2 =>
        simp [List.countP_append, RemoteCall.isCreateCalendar]
      · simp [List.countP_append, RemoteCall.isCreateCalendar]
    · split
      · split
        · next heq1 heq2 =>
          simp [List.countP_append, RemoteCall.isCreateCalendar]
        · simp [List.countP_append, RemoteCall.isCreateCalendar]
      · split
        · simp [List.countP_append, RemoteCall.isCreateCalendar]
        · simp [List.countP_append, RemoteCall.isCreateCalendar]

theorem enableUserWebhook_users (remote : Remote) (db : Db) (userId : Nat) (url : String) :
    ((enableUserWebhook remote db userId url).1).users = db.users := by
  unfold enableUserWebhook
  dsimp only
  split
  · rfl
  · refine foldl_invariant _ (fun (acc : Db × List RemoteCall) => acc.1.users = db.users) _ _ rfl ?_
    intro x a hx
    rw [enableWebhookStep_users]
    exact hx

theorem enableUserWebhook_no_createCalendar (remote : Remote) (db : Db)
    (userId : Nat) (url : String) :
    ((enableUserWebhook remote db userId url).2.1).countP (fun c => c.isCreateCalendar) = 0 := by
  unfold enableUserWebhook
  dsimp only
  split
  · rfl
  · refine foldl_invariant _
      (fun (acc : Db × List RemoteCall) => (acc.2).countP (fun c => c.isCreateCalendar) = 0) _ _ rfl ?_
    intro x a hx
    rw [enableWebhookStep_no_createCalendar]
    exact hx

end TaskSync

namespace TaskSync

theorem find?_user_replace (l : List User) (uid : Nat) (user v : User)
    (h : l.find? (fun u => u.id == uid) = some user) (hid : v.id = user.id) :
    (l.map (fun w => if w.id == v.id then v else w)).find? (fun u => u.id == uid) = some v := by
  have hpred : (user.id == uid) = true := by
    have hp0 := List.find?_some h
    simpa using hp0
  induction l with
  | nil => simp at h
  | cons w ws ih =>
    rw [List.map_cons]
    rw [List.find?_cons] at h
    rw [List.find?_cons]
    by_cases hp : (w.id == uid) = true
    · rw [hp] at h
      dsimp only at h
      have huw : user = w := by injection h with h2; exact h2.symm
      have hv : (w.id == v.id) = true := beq_iff_eq.mpr (by rw [hid, huw])
      rw [if_pos hv]
      have hv2 : (v.id == uid) = true := by
        rw [beq_iff_eq, hid, huw]
        exact beq_iff_eq.mp hp
      rw [hv2]
    · have hp2 : (w.id == uid) = false := eq_false_of_ne_true hp
      rw [hp2] at h
      dsimp only at h
      have hw : (w.id == v.id) = false := by
        by_contra hcon
        have hwv : (w.id == v.id) = true := by
          cases hb : (w.id == v.id) with
          | true => rfl
          | false => exact absurd hb hcon
        have hx1 : w.id = v.id := beq_iff_eq.mp hwv
        have hx2 : user.id = uid := beq_iff_eq.mp hpred
        exact hp (beq_iff_eq.mpr (by rw [hx1, hid, hx2]))
      rw [if_neg (by simp [hw])]
      rw [hp2]
      exact ih h

theorem hasValidGoogleAuth_of_find (db : Db) (uid : Nat) (u : User)
    (h : findUser db uid = some u) : hasValidGoogleAuth db uid = u.hasGoogleAuth := by
  unfold hasValidGoogleAuth
  unfold findUser at h
  rw [h]

/-- When the account already has a dedicated calendar id and sync enabled,
`initializeDedicatedCalendar` returns immediately: no store change and no
remote call at all. -/
theorem init_second_call (remote : Remote) (db : Db) (userId : Nat)
    (name url : String) (now : Int) (u : User)
    (hfind : findUser db userId = some u)
    (hauth : u.hasGoogleAuth = true)
    (hded : u.dedicatedCalendarId.isSome = true)
    (hsync : u.autoSyncEnabled = true) :
    initializeDedicatedCalendar remote db userId name url now = (db, [], .ok u) := by
  unfold initializeDedicatedCalendar
  rw [hasValidGoogleAuth_of_find db userId u hfind]
  rw [hfind]
  simp [hauth, hded, hsync]

end TaskSync

namespace TaskSync

theorem init_second_after_accept (remote : Remote) (db dbS : Db) (userId : Nat)
    (name url : String) (now : Int) (user : User) (cid : String)
    (heqU : findUser db userId = some user)
    (hauth : hasValidGoogleAuth db userId = true)
    (husers : dbS.users =
      (saveUser db
        { user with dedicatedCalendarId := some cid, autoSyncEnabled := true }).users) :
    initializeDedicatedCalendar remote dbS userId name url now =
      (dbS, [], .ok { user with dedicatedCalendarId := some cid, autoSyncEnabled := true }) := by
  apply init_second_call
  · unfold findUser
    rw [husers]
    unfold saveUser
    dsimp only
    have heqU2 : db.users.find? (fun u => u.id == userId) = some user := heqU
    exact find?_user_replace db.users userId user
      { user with dedicatedCalendarId := some cid, autoSyncEnabled := true } heqU2 rfl
  · show user.hasGoogleAuth = true
    rw [← hasValidGoogleAuth_of_find db userId user heqU]
    exact hauth
  · rfl
  · rfl

end TaskSync

namespace TaskSync

theorem init_guard_contra (user u : User) (C : Prop)
    (hg : (user.dedicatedCalendarId.isSome && user.autoSyncEnabled) = false)
    (hu2 : some user = some u) (hded : u.dedicatedCalendarId.isSome = true)
    (hsync : u.autoSyncEnabled = true) : C := by
  have huu : user = u := by injection hu2
  subst huu
  rw [hded, hsync] at hg
  simp at hg

theorem init_accept_second (remote : Remote) (db dbE dbS : Db) (userId : Nat)
    (name url : String) (now : Int) (user : User) (resolvedId : String)
    (c3 c4 : List RemoteCall) (a : Unit) (r : SyncResult)
    (hfind : findUser db userId = some user)
    (hauth : hasValidGoogleAuth db userId = true)
    (hE : enableUserWebhook remote
        (saveUser db { user with dedicatedCalendarId := some resolvedId, autoSyncEnabled := true })
        userId url = (dbE, c3, .ok a))
    (hS : syncAllTasksToGoogle remote (getOrCreateInboxProject dbE userId).1 userId now
        = (dbS, c4, .ok r)) :
    initializeDedicatedCalendar remote dbS userId name url now =
      (dbS, [], .ok { user with dedicatedCalendarId := some resolvedId, autoSyncEnabled := true }) := by
  apply init_second_after_accept remote db dbS userId name url now user resolvedId hfind hauth
  have h4 := syncAllTasksToGoogle_users remote (getOrCreateInboxProject dbE userId).1 userId now
  rw [hS] at h4
  dsimp only at h4
  have h3 := getOrCreateInboxProject_users dbE userId
  have h2 := enableUserWebhook_users remote
    (saveUser db { user with dedicatedCalendarId := some resolvedId, autoSyncEnabled := true })
    userId url
  rw [hE] at h2
  dsimp only at h2
  rw [h4, h3, h2]

theorem init_accept_traces (remote : Remote) (db dbE dbS : Db) (userId : Nat)
    (url : String) (now : Int) (user : User) (resolvedId : String)
    (c3 c4 : List RemoteCall) (a : Unit) (r : SyncResult)
    (hE : enableUserWebhook remote
        (saveUser db { user with dedicatedCalendarId := some resolvedId, autoSyncEnabled := true })
        userId url = (dbE, c3, .ok a))
    (hS : syncAllTasksToGoogle remote (getOrCreateInboxProject dbE userId).1 userId now
        = (dbS, c4, .ok r)) :
    c3.countP (fun c => c.isCreateCalendar) = 0 ∧
      c4.countP (fun c => c.isCreateCalendar) = 0 := by
  constructor
  · have hc3 := enableUserWebhook_no_createCalendar remote
      (saveUser db { user with dedicatedCalendarId := some resolvedId, autoSyncEnabled := true })
      userId url
    rw [hE] at hc3
    exact hc3
  · have hc4 := syncAllTasksToGoogle_no_createCalendar remote
      (getOrCreateInboxProject dbE userId).1 userId now
    rw [hS] at hc4
    exact hc4

end TaskSync

namespace TaskSync

-- ============================================
-- Claim C4: provisioning idempotence
-- ============================================

/-- C4: provisioning is idempotent. After a successful
`initializeDedicatedCalendar` call, a second call for the same account
returns the same user record — hence the same dedicated calendar id — and
its trace contains no `createCalendar` call; a call that finds the account
already provisioned with sync enabled returns immediately with no store
change and no remote call at all; and the first call creates a remote
calendar only when no calendar with the configured name is found remotely
and no dedicated calendar id was already stored. -/
theorem initializeDedicatedCalendar_idempotent (remote : Remote) (db : Db)
    (userId : Nat) (name url : String) (now : Int) (db1 : Db)
    (t1 : List RemoteCall) (u1 : User)
    (h1 : initializeDedicatedCalendar remote db userId name url now = (db1, t1, .ok u1)) :
    (∃ t2, initializeDedicatedCalendar remote db1 userId name url now = (db1, t2, .ok u1) ∧
        t2.countP (fun c => c.isCreateCalendar) = 0) ∧
    (∀ u, findUser db userId = some u → u.dedicatedCalendarId.isSome = true →
        u.autoSyncEnabled = true → db1 = db ∧ t1 = [] ∧ u1 = u) ∧
    (t1.countP (fun c => c.isCreateCalendar) ≠ 0 →
        strOpt ((remote.findCalendarByName userId name).bind (fun c => c.id)) = none ∧
        ∃ u, findUser db userId = some u ∧ u.dedicatedCalendarId = none) := by
  have hauth : hasValidGoogleAuth db userId = true := by
    by_contra hc
    have hcf : hasValidGoogleAuth db userId = false := by
      cases hb : hasValidGoogleAuth db userId with
      | true => exact absurd hb hc
      | false => rfl
    unfold initializeDedicatedCalendar at h1
    rw [hcf] at h1
    simp at h1
  rcases hfind : findUser db userId with _ | user
  · exfalso
    unfold initializeDedicatedCalendar at h1
    rw [hauth, hfind] at h1
    simp at h1
  · unfold initializeDedicatedCalendar at h1
    rw [hauth, hfind] at h1
    simp only [Bool.not_true, Bool.false_eq_true, if_false] at h1
    cases hg : (user.dedicatedCalendarId.isSome && user.autoSyncEnabled) with
    | true =>
      rw [hg, if_pos rfl] at h1
      rw [Prod.mk.injEq, Prod.mk.injEq] at h1
      obtain ⟨hdb, ht, hu⟩ := h1
      have huu : user = u1 := by injection hu
      have hga : user.hasGoogleAuth = true := by
        rw [← hasValidGoogleAuth_of_find db userId user hfind]
        exact hauth
      obtain ⟨hded, hsync⟩ := (Bool.and_eq_true _ _).mp hg
      refine ⟨⟨[], ?_, rfl⟩, ?_, ?_⟩
      · rw [← hdb, ← huu]
        exact init_second_call remote db userId name url now user hfind hga hded hsync
      · intro u hu2 _ _
        have huu2 : user = u := by injection hu2
        exact ⟨hdb.symm, ht.symm, huu.symm.trans huu2⟩
      · intro hcnt
        exact absurd (by rw [← ht]; rfl) hcnt
    | false =>
      rw [hg] at h1
      simp only [Bool.false_eq_true, if_false] at h1
      rcases hex : strOpt ((remote.findCalendarByName userId name).bind (fun c => c.id)) with _ | cid
      · rw [hex] at h1
        simp only [] at h1
        rcases hstored : user.dedicatedCalendarId with _ | c0
        · rw [hstored] at h1
          simp only [] at h1
          rcases hcc : remote.createCalendar userId name
              "Tasks and events from your Time Management app" with msg | newCal
          · rw [hcc] at h1
            simp at h1
          · rw [hcc] at h1
            simp only [] at h1
            rcases hid : strOpt newCal.id with _ | cid
            · rw [hid] at h1
              simp at h1
            · rw [hid] at h1
              simp only [] at h1
              have hcond : ((none : Option String).isNone
                  || ((none : Option String) == some cid)) = true := by simp
              rw [hcond, if_pos rfl] at h1
              rcases hE : enableUserWebhook remote (saveUser db
                  { user with dedicatedCalendarId := some cid, autoSyncEnabled := true })
                  userId url with ⟨dbE, c3, rE⟩
              rw [hE] at h1
              cases rE with
              | error e => simp at h1
              | ok a =>
                simp only [] at h1
                rcases hS : syncAllTasksToGoogle remote
                    (getOrCreateInboxProject dbE userId).1 userId now with ⟨dbS, c4, rS⟩
                rw [hS] at h1
                cases rS with
                | error e => simp at h1
                | ok r =>
                  simp only [] at h1
                  rw [Prod.mk.injEq, Prod.mk.injEq] at h1
                  obtain ⟨hdb, ht, hu⟩ := h1
                  have huu :
                      ({ user with dedicatedCalendarId := some cid, autoSyncEnabled := true } : User)
                        = u1 := by
                    injection hu
                  refine ⟨⟨[], ?_, rfl⟩, ?_, ?_⟩
                  · rw [← hdb, ← huu]
                    exact init_accept_second remote db dbE dbS userId name url now user cid
                      c3 c4 a r hfind hauth hE hS
                  · intro u hu2 hded hsync
                    exact init_guard_contra user u _ hg hu2 hded hsync
                  · intro _
                    exact ⟨rfl, user, rfl, hstored⟩
        · rw [hstored] at h1
          simp only [] at h1
          have hcond : ((some c0).isNone || ((some c0 : Option String) == some c0)) = true := by
            simp
          rw [hcond, if_pos rfl] at h1
          rcases hE : enableUserWebhook remote (saveUser db
              { user with dedicatedCalendarId := some c0, autoSyncEnabled := true })
              userId url with ⟨dbE, c3, rE⟩
          rw [hE] at h1
          cases rE with
          | error e => simp at h1
          | ok a =>
            simp only [] at h1
            rcases hS : syncAllTasksToGoogle remote
                (getOrCreateInboxProject dbE userId).1 userId now with ⟨dbS, c4, rS⟩
            rw [hS] at h1
            cases rS with
            | error e => simp at h1
            | ok r =>
              simp only [] at h1
              rw [Prod.mk.injEq, Prod.mk.injEq] at h1
              obtain ⟨hdb, ht, hu⟩ := h1
              have huu :
                  ({ user with dedicatedCalendarId := some c0, autoSyncEnabled := true } : User)
                    = u1 := by
                injection hu
              obtain ⟨hc3, hc4⟩ := init_accept_traces remote db dbE dbS userId url now user c0
                c3 c4 a r hE hS
              refine ⟨⟨[], ?_, rfl⟩, ?_, ?_⟩
              · rw [← hdb, ← huu]
                exact init_accept_second remote db dbE dbS userId name url now user c0
                  c3 c4 a r hfind hauth hE hS
              · intro u hu2 hded hsync
                exact init_guard_contra user u _ hg hu2 hded hsync
              · intro hcnt
                refine absurd ?_ hcnt
                rw [← ht]
                simp only [List.countP_append, hc3, hc4]
                simp [RemoteCall.isCreateCalendar]
      · rw [hex] at h1
        simp only [] at h1
        cases hupd : (user.dedicatedCalendarId.isNone
            || user.dedicatedCalendarId == some cid) with
        | true =>
          rw [hupd, if_pos rfl] at h1
          rcases hE : enableUserWebhook remote (saveUser db
              { user with dedicatedCalendarId := some cid, autoSyncEnabled := true })
              userId url with ⟨dbE, c3, rE⟩
          rw [hE] at h1
          cases rE with
          | error e => simp at h1
          | ok a =>
            simp only [] at h1
            rcases hS : syncAllTasksToGoogle remote
                (getOrCreateInboxProject dbE userId).1 userId now with ⟨dbS, c4, rS⟩
            rw [hS] at h1
            cases rS with
            | error e => simp at h1
            | ok r =>
              simp only [] at h1
              rw [Prod.mk.injEq, Prod.mk.injEq] at h1
              obtain ⟨hdb, ht, hu⟩ := h1
              have huu :
                  ({ user with dedicatedCalendarId := some cid, autoSyncEnabled := true } : User)
                    = u1 := by
                injection hu
              obtain ⟨hc3, hc4⟩ := init_accept_traces remote db dbE dbS userId url now user cid
                c3 c4 a r hE hS
              refine ⟨⟨[], ?_, rfl⟩, ?_, ?_⟩
              · rw [← hdb, ← huu]
                exact init_accept_second remote db dbE dbS userId name url now user cid
                  c3 c4 a r hfind hauth hE hS
              · intro u hu2 hded hsync
                exact init_guard_contra user u _ hg hu2 hded hsync
              · intro hcnt
                refine absurd ?_ hcnt
                rw [← ht]
                simp only [List.countP_append, hc3, hc4]
                simp [RemoteCall.isCreateCalendar]
        | false =>
          rw [hupd] at h1
          simp only [Bool.false_eq_true, if_false] at h1
          rw [Prod.mk.injEq, Prod.mk.injEq] at h1
          obtain ⟨hdb, ht, hu⟩ := h1
          have huu : user = u1 := by injection hu
          refine ⟨⟨[RemoteCall.findCalendarByName userId name] ++ [], ?_,
            by simp [RemoteCall.isCreateCalendar]⟩, ?_, ?_⟩
          · rw [← hdb, ← huu]
            unfold initializeDedicatedCalendar
            rw [hauth, hfind]
            simp only [Bool.not_true, Bool.false_eq_true, if_false]
            rw [hg]
            simp only [Bool.false_eq_true, if_false]
            rw [hex]
            simp only []
            rw [hupd]
            simp only [Bool.false_eq_true, if_false]
          · intro u hu2 hded hsync
            exact init_guard_contra user u _ hg hu2 hded hsync
          · intro hcnt
            refine absurd ?_ hcnt
            rw [← ht]
            simp [RemoteCall.isCreateCalendar]

end TaskSync

namespace TaskSync

theorem initializeDedicatedCalendar_idempotent_witness :
    (∃ t2, initializeDedicatedCalendar okRemote dbProv 1 "Axis" "hook" 0 =
        (dbProv, t2, .ok uProv) ∧ t2.countP (fun c => c.isCreateCalendar) = 0) ∧
    (∀ u, findUser dbU 1 = some u → u.dedicatedCalendarId.isSome = true →
        u.autoSyncEnabled = true → dbProv = dbU ∧ tProv = [] ∧ uProv = u) ∧
    (tProv.countP (fun c => c.isCreateCalendar) ≠ 0 →
        strOpt ((okRemote.findCalendarByName 1 "Axis").bind (fun c => c.id)) = none ∧
        ∃ u, findUser dbU 1 = some u ∧ u.dedicatedCalendarId = none) :=
  initializeDedicatedCalendar_idempotent okRemote dbU 1 "Axis" "hook" 0 dbProv tProv uProv
    (by rfl)

end TaskSync
